import Mathlib

/-!
The SOCKS5 wire codec of http2socks, `unused/logger.go`.

A shallow embedding of the four message types of `unused/logger.go`
(`HelloRequest`, `HelloResponse`, `ConnectionRequest`, `ConnectionResponse`)
with their `Decode` and `Encode` methods.

Modelling conventions.

* A byte (`uint8`) is a `Nat`; a well-typed byte is `< 256`.  Where Go's
  fixed-width arithmetic can wrap, the reduction `% 256` or `% 65536` is
  written out.
* An `io.Reader` is the finite list of bytes it still holds; end of the list
  is end of stream.
* An `io.Writer` is the list of bytes it has accepted together with the room
  it has left (`none`: unbounded, as for a `bytes.Buffer`).
* A Go call either returns `nil`, returns an error, or panics at run time
  (index or slice bound out of range): the three cases of `Outcome`.
* A fixed array `[N]byte` is a list; Go's zero value is `List.replicate N 0`.
-/

namespace Http2socks

/-! ## Errors and outcomes -/

/-- The error values the codec can return. -/
inductive Error
  /-- The package variable `errVersion`. -/
  | errVersion
  /-- The error with text "too many auth". -/
  | tooManyAuth
  /-- The error with text "error reading auth methods". -/
  | errorReadingAuthMethods
  /-- The error with text "unknown command". -/
  | unknownCommand
  /-- The error with text "error reserved". -/
  | errorReserved
  /-- The error with text "domain too long". -/
  | domainTooLong
  /-- The error with text "unknown address type: %v" for the given type byte. -/
  | unknownAddressType (t : Nat)
  /-- The error with text "unknown status". -/
  | unknownStatus
  /-- Standard library `io.EOF`: nothing could be read. -/
  | EOF
  /-- Standard library `io.ErrUnexpectedEOF`: the stream ended inside a read. -/
  | ErrUnexpectedEOF
  /-- Standard library `io.ErrShortWrite`, returned by a writer that is full. -/
  | ErrShortWrite
  /-- The joined error of `writeBytes`: "nw:%d vs n:%d" with the writer's error. -/
  | writeMismatch (nw n : Nat) (shortWrite : Bool)
  deriving DecidableEq, Repr

/-- How a Go call ends: it returns `nil`, returns an error, or panics. -/
inductive Outcome
  | nil
  | err (e : Error)
  | panic
  deriving DecidableEq, Repr

/-! ## Readers, writers and the builtin `copy` -/

/-- An `io.Reader` over a finite byte stream: the bytes not yet consumed. -/
abbrev Reader := List Nat

/-- What one `io.ReadFull(r, buf[:k])` leaves behind. -/
structure ReadResult where
  /-- The reader after the call. -/
  r : Reader
  /-- The whole buffer after the call. -/
  buf : List Nat
  /-- The error returned, if any. -/
  err : Option Error
  deriving DecidableEq, Repr

/-- Standard library `io.ReadFull(r, buf[:k])`: fills the first `k` bytes of
`buf` from `r`.  With fewer than `k` bytes left it consumes what is there and
fails with `io.EOF` (nothing read) or `io.ErrUnexpectedEOF` (some read). -/
def ReadFull (r : Reader) (buf : List Nat) (k : Nat) : ReadResult :=
  if k ≤ r.length then
    { r := r.drop k, buf := r.take k ++ buf.drop k, err := none }
  else
    { r := [], buf := r ++ buf.drop r.length,
      err := some (if r.length = 0 then Error.EOF else Error.ErrUnexpectedEOF) }

/-- Go's builtin `copy(dst, src)`: the destination after the call and the
number of elements copied, `min(len(dst), len(src))`. -/
def copy (dst src : List Nat) : List Nat × Nat :=
  (src.take dst.length ++ dst.drop src.length, min dst.length src.length)

/-- An `io.Writer`: the bytes accepted so far and the room left
(`none`: unbounded). -/
structure Writer where
  out : List Nat
  room : Option Nat
  deriving DecidableEq, Repr

/-- An empty in-memory buffer that accepts every write. -/
def Writer.buffer : Writer := { out := [], room := none }

/-- One `w.Write(b)`: the writer afterwards, the count `nw` and the error.
A writer with room for fewer than `len(b)` bytes accepts what fits and
returns `io.ErrShortWrite`. -/
def Writer.Write (w : Writer) (b : List Nat) : Writer × Nat × Option Error :=
  match w.room with
  | none => ({ w with out := w.out ++ b }, b.length, none)
  | some k =>
    if b.length ≤ k then
      ({ out := w.out ++ b, room := some (k - b.length) }, b.length, none)
    else
      ({ out := w.out ++ b.take k, room := some 0 }, k, some Error.ErrShortWrite)

/-- What an `Encode` call leaves behind: the writer and the outcome. -/
structure Encoded where
  w : Writer
  out : Outcome
  deriving DecidableEq, Repr

/-- Source `writeBytes` (logger.go 39-44): one `Write`, an error when the
count differs from `len(b)` or the writer returned an error. -/
def writeBytes (w : Writer) (b : List Nat) : Encoded :=
  let res := w.Write b
  if res.2.1 ≠ b.length ∨ res.2.2 ≠ none then
    { w := res.1, out := Outcome.err (Error.writeMismatch res.2.1 b.length res.2.2.isSome) }
  else
    { w := res.1, out := Outcome.nil }

/-- What a `Decode` call leaves behind: the receiver, the reader and the outcome. -/
structure Decoded (α : Type) where
  msg : α
  r : Reader
  out : Outcome
  deriving DecidableEq, Repr

/-! ## HelloRequest and HelloResponse -/

/-- Source `HelloRequest` (logger.go 11-15); `AuthMethods` is `[16]byte`. -/
structure HelloRequest where
  Version : Nat
  NumberOfAuth : Nat
  AuthMethods : List Nat
  deriving DecidableEq, Repr

/-- The zero value `var m HelloRequest`. -/
def HelloRequest.fresh : HelloRequest :=
  { Version := 0, NumberOfAuth := 0, AuthMethods := List.replicate 16 0 }

/-- Source `HelloRequest.Decode` (logger.go 19-37). -/
def HelloRequest.Decode (m : HelloRequest) (r : Reader) : Decoded HelloRequest :=
  let buf := List.replicate 128 0
  let rd := ReadFull r buf 2
  match rd.err with
  | some e => { msg := m, r := rd.r, out := Outcome.err e }
  | none =>
    let buf := rd.buf
    let r := rd.r
    let m := { m with Version := buf.getD 0 0 }
    let m := { m with NumberOfAuth := buf.getD 1 0 }
    if m.Version ≠ 5 then
      { msg := m, r := r, out := Outcome.err Error.errVersion }
    else if m.NumberOfAuth ≤ 0 ∨ m.NumberOfAuth > 16 then
      { msg := m, r := r, out := Outcome.err Error.tooManyAuth }
    else if m.NumberOfAuth > buf.length then
      { msg := m, r := r, out := Outcome.panic }
    else
      let rd := ReadFull r buf m.NumberOfAuth
      match rd.err with
      | some _ => { msg := m, r := rd.r, out := Outcome.err Error.errorReadingAuthMethods }
      | none =>
        let buf := rd.buf
        let m := { m with AuthMethods := (copy m.AuthMethods (buf.take m.NumberOfAuth)).1 }
        { msg := m, r := rd.r, out := Outcome.nil }

/-- Source `HelloRequest.Encode` (logger.go 46-52).  The slice
`m.AuthMethods[:m.NumberOfAuth]` of the 16-byte array panics beyond 16, and
the slice bound `1+1+m.NumberOfAuth` is computed in `uint8`. -/
def HelloRequest.Encode (m : HelloRequest) (w : Writer) : Encoded :=
  let buf := List.replicate 128 0
  let buf := buf.set 0 m.Version
  let buf := buf.set 1 m.NumberOfAuth
  if m.NumberOfAuth > 16 then
    { w := w, out := Outcome.panic }
  else
    let buf := buf.take 2 ++ (copy (buf.drop 2) (m.AuthMethods.take m.NumberOfAuth)).1
    let k := (1 + 1 + m.NumberOfAuth) % 256
    if k > buf.length then
      { w := w, out := Outcome.panic }
    else
      writeBytes w (buf.take k)

/-- Source `HelloResponse` (logger.go 54-57). -/
structure HelloResponse where
  Version : Nat
  ChosenAuth : Nat
  deriving DecidableEq, Repr

/-- The zero value `var m HelloResponse`. -/
def HelloResponse.fresh : HelloResponse := { Version := 0, ChosenAuth := 0 }

/-- Source `HelloResponse.Decode` (logger.go 59-70). -/
def HelloResponse.Decode (m : HelloResponse) (r : Reader) : Decoded HelloResponse :=
  let buf := List.replicate 128 0
  let rd := ReadFull r buf 2
  match rd.err with
  | some e => { msg := m, r := rd.r, out := Outcome.err e }
  | none =>
    let buf := rd.buf
    let m := { m with Version := buf.getD 0 0 }
    let m := { m with ChosenAuth := buf.getD 1 0 }
    if m.Version ≠ 5 then
      { msg := m, r := rd.r, out := Outcome.err Error.errVersion }
    else
      { msg := m, r := rd.r, out := Outcome.nil }

/-- Source `HelloResponse.Encode` (logger.go 72-77). -/
def HelloResponse.Encode (m : HelloResponse) (w : Writer) : Encoded :=
  let buf := List.replicate 128 0
  let buf := buf.set 0 m.Version
  let buf := buf.set 1 m.ChosenAuth
  writeBytes w (buf.take 2)

/-! ## Commands, address types, statuses and IP addresses -/

/-- Source constant `TCPStream` (logger.go 82). -/
def TCPStream : Nat := 0x01
/-- Source constant `TCPBinding` (logger.go 83). -/
def TCPBinding : Nat := 0x02
/-- Source constant `UDPBinding` (logger.go 84). -/
def UDPBinding : Nat := 0x03

/-- Source `Command.String` (logger.go 87-97). -/
def Command.String (c : Nat) : String :=
  if c = TCPStream then "TCPStream"
  else if c = TCPBinding then "TCPBinding"
  else if c = UDPBinding then "UDPBinding"
  else "UnknownCommand"

/-- Source constant `IPv4` (logger.go 102). -/
def IPv4 : Nat := 0x01
/-- Source constant `Domain` (logger.go 103). -/
def Domain : Nat := 0x03
/-- Source constant `IPv6` (logger.go 104). -/
def IPv6 : Nat := 0x04

/-- Source `Status.String` (logger.go 241-263); the nine constants of
logger.go 230-238 are the values 0x00 to 0x08. -/
def Status.String (s : Nat) : String :=
  if s = 0x00 then "StatusRequestGranted"
  else if s = 0x01 then "StatusGeneralFailure"
  else if s = 0x02 then "StatusConnectionNotAllowedByRuleSet"
  else if s = 0x03 then "StatusNetworkUnreachable"
  else if s = 0x04 then "StatusHostUnreachable"
  else if s = 0x05 then "StatusConnectionRefused"
  else if s = 0x06 then "StatusTTLExpired"
  else if s = 0x07 then "StatusCommandNotSupported"
  else if s = 0x08 then "StatusAddressTypeNotSupported"
  else "UnknownStatus"

/-- Standard library `netip.Addr`, by its documented behaviour: the zero
value, an IPv4 address of 4 bytes, or an IPv6 address of 16 bytes with a zone
(the empty zone is no zone). -/
inductive Addr
  | zero
  | v4 (ip : List Nat)
  | v6 (ip : List Nat) (zone : List Nat)
  deriving DecidableEq, Repr

/-- Standard library `netip.AddrFrom4`. -/
def Addr.AddrFrom4 (ip : List Nat) : Addr := Addr.v4 ip

/-- Standard library `netip.AddrFrom16`: an IPv6 address without zone; an
IPv4-mapped address stays an IPv6 address. -/
def Addr.AddrFrom16 (ip : List Nat) : Addr := Addr.v6 ip []

/-- Standard library `Addr.Is4In6`: an IPv6 address with prefix `::ffff:0:0/96`. -/
def Addr.Is4In6 : Addr → Bool
  | Addr.v6 ip _ => ip.take 12 = [0, 0, 0, 0, 0, 0, 0, 0, 0, 0, 0xff, 0xff]
  | _ => false

/-- Standard library `Addr.As4`: the 4 bytes of an IPv4 or IPv4-mapped IPv6
address; `none` is the panic on the zero value and on any other IPv6 address. -/
def Addr.As4 : Addr → Option (List Nat)
  | Addr.v4 ip => some ip
  | Addr.v6 ip zone => if Addr.Is4In6 (Addr.v6 ip zone) then some (ip.drop 12) else none
  | Addr.zero => none

/-- Standard library `Addr.As16`: the 16-byte form; an IPv4 address is
returned IPv4-mapped, the zero value as 16 zero bytes. -/
def Addr.As16 : Addr → List Nat
  | Addr.v4 ip => [0, 0, 0, 0, 0, 0, 0, 0, 0, 0, 0xff, 0xff] ++ ip
  | Addr.v6 ip _ => ip
  | Addr.zero => List.replicate 16 0

/-- Writing `buf[i:][j] = v`: `none` is the panic when `i` is no valid slice
bound or `j` no valid index of the slice. -/
def setAt (buf : List Nat) (i j v : Nat) : Option (List Nat) :=
  if i ≤ buf.length ∧ j < buf.length - i then some (buf.set (i + j) v) else none

/-- The call `n += copy(buf[n:], b)`: the buffer and `n` afterwards; `none` is the
panic when `n` is no valid slice bound. -/
def copyAt (buf : List Nat) (n : Nat) (b : List Nat) : Option (List Nat × Nat) :=
  if n ≤ buf.length then
    some (buf.take n ++ (copy (buf.drop n) b).1, n + (copy (buf.drop n) b).2)
  else none

/-! ## ConnectionRequest -/

/-- The anonymous struct `Address` of `ConnectionRequest` (logger.go 123-128),
its field `Type` written `Typ`;
a Go string is its list of bytes. -/
structure RequestAddress where
  Typ : Nat
  Domain : List Nat
  IP : Addr
  Port : Nat
  deriving DecidableEq, Repr

/-- Source `ConnectionRequest` (logger.go 120-129). -/
structure ConnectionRequest where
  Version : Nat
  Command : Nat
  Address : RequestAddress
  deriving DecidableEq, Repr

/-- The zero value `var m ConnectionRequest`. -/
def ConnectionRequest.fresh : ConnectionRequest :=
  { Version := 0, Command := 0,
    Address := { Typ := 0, Domain := [], IP := Addr.zero, Port := 0 } }

/-- The tail of `ConnectionRequest.Decode` after the address switch
(logger.go 184-188): two bytes of port, high byte first, in `uint16`. -/
def ConnectionRequest.decodePort (m : ConnectionRequest) (r : Reader) (buf : List Nat) :
    Decoded ConnectionRequest :=
  let rd := ReadFull r buf 2
  match rd.err with
  | some e => { msg := m, r := rd.r, out := Outcome.err e }
  | none =>
    let buf := rd.buf
    let m := { m with Address := { m.Address with
      Port := ((buf.getD 0 0 * 256) % 65536 + buf.getD 1 0) % 65536 } }
    { msg := m, r := rd.r, out := Outcome.nil }

/-- The address switch of `ConnectionRequest.Decode` (logger.go 154-183)
followed by the port. -/
def ConnectionRequest.decodeAddress (m : ConnectionRequest) (r : Reader) (buf : List Nat) :
    Decoded ConnectionRequest :=
  if m.Address.Typ = IPv4 then
    let rd := ReadFull r buf 4
    match rd.err with
    | some e => { msg := m, r := rd.r, out := Outcome.err e }
    | none =>
      let buf := rd.buf
      let ip := (copy (List.replicate 4 0) (buf.take 4)).1
      let m := { m with Address := { m.Address with IP := Addr.AddrFrom4 ip } }
      ConnectionRequest.decodePort m rd.r buf
  else if m.Address.Typ = IPv6 then
    let rd := ReadFull r buf 16
    match rd.err with
    | some e => { msg := m, r := rd.r, out := Outcome.err e }
    | none =>
      let buf := rd.buf
      let ip := (copy (List.replicate 16 0) (buf.take 16)).1
      let m := { m with Address := { m.Address with IP := Addr.AddrFrom16 ip } }
      ConnectionRequest.decodePort m rd.r buf
  else if m.Address.Typ = Domain then
    let rd := ReadFull r buf 1
    match rd.err with
    | some e => { msg := m, r := rd.r, out := Outcome.err e }
    | none =>
      let buf := rd.buf
      let r := rd.r
      let n := buf.getD 0 0
      if n < 1 ∨ n > 255 then
        { msg := m, r := r, out := Outcome.err Error.domainTooLong }
      else if n > buf.length then
        { msg := m, r := r, out := Outcome.panic }
      else
        let rd := ReadFull r buf n
        match rd.err with
        | some e => { msg := m, r := rd.r, out := Outcome.err e }
        | none =>
          let buf := rd.buf
          let m := { m with Address := { m.Address with Domain := buf.take n } }
          ConnectionRequest.decodePort m rd.r buf
  else
    { msg := m, r := r, out := Outcome.err (Error.unknownAddressType m.Address.Typ) }

/-- Source `ConnectionRequest.Decode` (logger.go 131-189). -/
def ConnectionRequest.Decode (m : ConnectionRequest) (r : Reader) : Decoded ConnectionRequest :=
  let buf := List.replicate 256 0
  let rd := ReadFull r buf 2
  match rd.err with
  | some e => { msg := m, r := rd.r, out := Outcome.err e }
  | none =>
    let buf := rd.buf
    let r := rd.r
    let m := { m with Version := buf.getD 0 0 }
    if m.Version ≠ 5 then
      { msg := m, r := r, out := Outcome.err Error.errVersion }
    else
      let m := { m with Command := buf.getD 1 0 }
      if Command.String m.Command = "UnknownCommand" then
        { msg := m, r := r, out := Outcome.err Error.unknownCommand }
      else
        let rd := ReadFull r buf 1
        match rd.err with
        | some e => { msg := m, r := rd.r, out := Outcome.err e }
        | none =>
          let buf := rd.buf
          let r := rd.r
          if buf.getD 0 0 ≠ 0 then
            { msg := m, r := r, out := Outcome.err Error.errorReserved }
          else
            let rd := ReadFull r buf 1
            match rd.err with
            | some e => { msg := m, r := rd.r, out := Outcome.err e }
            | none =>
              let buf := rd.buf
              let m := { m with Address := { m.Address with Typ := buf.getD 0 0 } }
              ConnectionRequest.decodeAddress m rd.r buf

/-- The tail of both `Encode` methods (logger.go 210-213 and 338-341): the
port as two bytes, high byte first, then `writeBytes(w, buf[:n])`. -/
def encodePort (buf : List Nat) (n port : Nat) (w : Writer) : Encoded :=
  match setAt buf n 0 ((port / 256) % 256) with
  | none => { w := w, out := Outcome.panic }
  | some buf =>
    match setAt buf n 1 (port % 256) with
    | none => { w := w, out := Outcome.panic }
    | some buf =>
      let n := n + 2
      if n > buf.length then { w := w, out := Outcome.panic }
      else writeBytes w (buf.take n)

/-- Source `ConnectionRequest.Encode` (logger.go 191-214). -/
def ConnectionRequest.Encode (m : ConnectionRequest) (w : Writer) : Encoded :=
  let buf := List.replicate 512 0
  let buf := buf.set 0 m.Version
  let buf := buf.set 1 m.Command
  let buf := buf.set 2 0
  let buf := buf.set 3 m.Address.Typ
  let n := 4
  if m.Address.Typ = IPv4 then
    match Addr.As4 m.Address.IP with
    | none => { w := w, out := Outcome.panic }
    | some b =>
      match copyAt buf n b with
      | none => { w := w, out := Outcome.panic }
      | some (buf, n) => encodePort buf n m.Address.Port w
  else if m.Address.Typ = IPv6 then
    match copyAt buf n (Addr.As16 m.Address.IP) with
    | none => { w := w, out := Outcome.panic }
    | some (buf, n) => encodePort buf n m.Address.Port w
  else if m.Address.Typ = Domain then
    match setAt buf n 0 (m.Address.Domain.length % 256) with
    | none => { w := w, out := Outcome.panic }
    | some buf =>
      let n := n + 1
      match copyAt buf n m.Address.Domain with
      | none => { w := w, out := Outcome.panic }
      | some (buf, n) => encodePort buf n m.Address.Port w
  else
    encodePort buf n m.Address.Port w

/-! ## ConnectionResponse -/

/-- The anonymous struct `Address` of `ConnectionResponse` (logger.go 268-272),
its field `Type` written `Typ`. -/
structure ResponseAddress where
  Typ : Nat
  IP : Addr
  Port : Nat
  deriving DecidableEq, Repr

/-- Source `ConnectionResponse` (logger.go 265-273). -/
structure ConnectionResponse where
  Version : Nat
  Status : Nat
  Address : ResponseAddress
  deriving DecidableEq, Repr

/-- The zero value `var m ConnectionResponse`. -/
def ConnectionResponse.fresh : ConnectionResponse :=
  { Version := 0, Status := 0, Address := { Typ := 0, IP := Addr.zero, Port := 0 } }

/-- The tail of `ConnectionResponse.Decode` after the address switch
(logger.go 316-320). -/
def ConnectionResponse.decodePort (m : ConnectionResponse) (r : Reader) (buf : List Nat) :
    Decoded ConnectionResponse :=
  let rd := ReadFull r buf 2
  match rd.err with
  | some e => { msg := m, r := rd.r, out := Outcome.err e }
  | none =>
    let buf := rd.buf
    let m := { m with Address := { m.Address with
      Port := ((buf.getD 0 0 * 256) % 65536 + buf.getD 1 0) % 65536 } }
    { msg := m, r := rd.r, out := Outcome.nil }

/-- The address switch of `ConnectionResponse.Decode` (logger.go 298-315)
followed by the port. -/
def ConnectionResponse.decodeAddress (m : ConnectionResponse) (r : Reader) (buf : List Nat) :
    Decoded ConnectionResponse :=
  if m.Address.Typ = IPv4 then
    let rd := ReadFull r buf 4
    match rd.err with
    | some e => { msg := m, r := rd.r, out := Outcome.err e }
    | none =>
      let buf := rd.buf
      let ip := (copy (List.replicate 4 0) (buf.take 4)).1
      let m := { m with Address := { m.Address with IP := Addr.AddrFrom4 ip } }
      ConnectionResponse.decodePort m rd.r buf
  else if m.Address.Typ = IPv6 then
    let rd := ReadFull r buf 16
    match rd.err with
    | some e => { msg := m, r := rd.r, out := Outcome.err e }
    | none =>
      let buf := rd.buf
      let ip := (copy (List.replicate 16 0) (buf.take 16)).1
      let m := { m with Address := { m.Address with IP := Addr.AddrFrom16 ip } }
      ConnectionResponse.decodePort m rd.r buf
  else
    { msg := m, r := r, out := Outcome.err (Error.unknownAddressType m.Address.Typ) }

/-- Source `ConnectionResponse.Decode` (logger.go 275-321). -/
def ConnectionResponse.Decode (m : ConnectionResponse) (r : Reader) :
    Decoded ConnectionResponse :=
  let buf := List.replicate 256 0
  let rd := ReadFull r buf 2
  match rd.err with
  | some e => { msg := m, r := rd.r, out := Outcome.err e }
  | none =>
    let buf := rd.buf
    let r := rd.r
    let m := { m with Version := buf.getD 0 0 }
    if m.Version ≠ 5 then
      { msg := m, r := r, out := Outcome.err Error.errVersion }
    else
      let m := { m with Status := buf.getD 1 0 }
      if Status.String m.Status = "UnknownStatus" then
        { msg := m, r := r, out := Outcome.err Error.unknownStatus }
      else
        let rd := ReadFull r buf 1
        match rd.err with
        | some e => { msg := m, r := rd.r, out := Outcome.err e }
        | none =>
          let buf := rd.buf
          let r := rd.r
          if buf.getD 0 0 ≠ 0 then
            { msg := m, r := r, out := Outcome.err Error.errorReserved }
          else
            let rd := ReadFull r buf 1
            match rd.err with
            | some e => { msg := m, r := rd.r, out := Outcome.err e }
            | none =>
              let buf := rd.buf
              let m := { m with Address := { m.Address with Typ := buf.getD 0 0 } }
              ConnectionResponse.decodeAddress m rd.r buf

/-- Source `ConnectionResponse.Encode` (logger.go 323-342). -/
def ConnectionResponse.Encode (m : ConnectionResponse) (w : Writer) : Encoded :=
  let buf := List.replicate 512 0
  let buf := buf.set 0 m.Version
  let buf := buf.set 1 m.Status
  let buf := buf.set 2 0
  let buf := buf.set 3 m.Address.Typ
  let n := 4
  if m.Address.Typ = IPv4 then
    match Addr.As4 m.Address.IP with
    | none => { w := w, out := Outcome.panic }
    | some b =>
      match copyAt buf n b with
      | none => { w := w, out := Outcome.panic }
      | some (buf, n) => encodePort buf n m.Address.Port w
  else if m.Address.Typ = IPv6 then
    match copyAt buf n (Addr.As16 m.Address.IP) with
    | none => { w := w, out := Outcome.panic }
    | some (buf, n) => encodePort buf n m.Address.Port w
  else
    encodePort buf n m.Address.Port w

/-! ## Well-typed values -/

/-- Every element is a byte. -/
def isBytes (l : List Nat) : Prop := ∀ b ∈ l, b < 256

instance (l : List Nat) : Decidable (isBytes l) := by
  unfold isBytes; infer_instance

/-- An address a ConnectionRequest may carry: IPv4 with a 4-byte IP, IPv6 with
a 16-byte IP without zone, or Domain with a name of 1 to 255 bytes; the fields
of the other variants are zero. -/
def RequestAddress.valid (a : RequestAddress) : Prop :=
  a.Port < 65536 ∧
  ((a.Typ = IPv4 ∧ a.Domain = [] ∧ ∃ ip, a.IP = Addr.v4 ip ∧ ip.length = 4 ∧ isBytes ip) ∨
   (a.Typ = IPv6 ∧ a.Domain = [] ∧ ∃ ip, a.IP = Addr.v6 ip [] ∧ ip.length = 16 ∧ isBytes ip) ∨
   (a.Typ = Http2socks.Domain ∧ a.IP = Addr.zero ∧
      1 ≤ a.Domain.length ∧ a.Domain.length ≤ 255 ∧ isBytes a.Domain))

/-- An address a ConnectionResponse may carry: IPv4 with a 4-byte IP or IPv6
with a 16-byte IP without zone. -/
def ResponseAddress.valid (a : ResponseAddress) : Prop :=
  a.Port < 65536 ∧
  ((a.Typ = IPv4 ∧ ∃ ip, a.IP = Addr.v4 ip ∧ ip.length = 4 ∧ isBytes ip) ∨
   (a.Typ = IPv6 ∧ ∃ ip, a.IP = Addr.v6 ip [] ∧ ip.length = 16 ∧ isBytes ip))

/-! ## The wire format of the specification -/

/-- The bytes an IP address consists of: 4 for IPv4, 16 for IPv6. -/
def Addr.ipBytes : Addr → List Nat
  | Addr.v4 ip => ip
  | Addr.v6 ip _ => ip
  | Addr.zero => []

/-- The bytes of a ConnectionRequest as the specification's wire-format table
words them: `version(1) command(1) reserved(1)=0x00 addrType(1)
addr(4|16|1+len) port(2)`, where the address is the IP bytes (IPv4, IPv6) or
one length byte followed by the name (Domain), and the port is big-endian. -/
def ConnectionRequest.wireFormat (m : ConnectionRequest) : List Nat :=
  [m.Version, m.Command, 0x00, m.Address.Typ]
    ++ (if m.Address.Typ = Domain then m.Address.Domain.length :: m.Address.Domain
        else Addr.ipBytes m.Address.IP)
    ++ [m.Address.Port / 256, m.Address.Port % 256]

/-! ## The client session and the server loop (client.go, server.go)

The external collaborators (`http2tcp`, `smux`, the socks5 backend) are
modelled by what they answer: a handle, named by a number, or an error value.
The calls made on them are recorded in program order.  The mutex and the log
lines are left out: calls of `open` follow one another. -/

/-- What a collaborator returns: a handle or an error value. -/
inductive Res
  | ok (id : Nat)
  | fail (e : Nat)
  deriving DecidableEq, Repr

/-- The calls made on the collaborators. -/
inductive Event
  /-- Call `http2tcp.Dial(c.server, c.token, "")` with its result. -/
  | Dial (res : Res)
  /-- Call `smux.Client(conn, nil)` with its result. -/
  | smuxClient (conn : Nat) (res : Res)
  /-- Call `alloc.Open()` on a session with its result. -/
  | Open (sess : Nat) (res : Res)
  /-- Call `Close()` on a smux session. -/
  | closeSession (sess : Nat)
  /-- Call `Close()` on a transport connection. -/
  | closeConn (conn : Nat)
  /-- Call `http2tcp.Accept(w, r, s.token)` with its result. -/
  | Accept (res : Res)
  /-- Call `smux.Server(conn, nil)` with its result. -/
  | smuxServer (conn : Nat) (res : Res)
  /-- Call `smuxServer.AcceptStream()` with its result. -/
  | AcceptStream (sess : Nat) (res : Res)
  /-- Statement `go s.backend.ServeConn(conn2)`. -/
  | ServeConn (stream : Nat)
  deriving DecidableEq, Repr

/-- The fields `httpConn` and `smuxConn` of source `Client` (client.go 14-21);
`none` is `nil`. -/
structure Client where
  httpConn : Option Nat
  smuxConn : Option Nat
  deriving DecidableEq, Repr

/-- The client as `NewClient` leaves it (client.go 23-29): no transport, no session. -/
def NewClient : Client := { httpConn := none, smuxConn := none }

/-- What the collaborators answer during one call of `open`. -/
structure OpenEnv where
  /-- Result of `http2tcp.Dial`. -/
  Dial : Res
  /-- Result of `smux.Client` on a transport. -/
  smuxClient : Nat → Res
  /-- Result of `Open` on a session. -/
  Open : Nat → Res

/-- How `open` ends: a stream and `nil`, `nil` and an error, or a panic. -/
inductive OpenResult
  | conn (stream : Nat)
  | err (e : Nat)
  | panic
  deriving DecidableEq, Repr

/-- What a call of `open` leaves behind. -/
structure Opened where
  c : Client
  trace : List Event
  result : OpenResult
  deriving DecidableEq, Repr

/-- The creation block of `open` (client.go 56-73): `Sum.inl` is an early
return, `Sum.inr` goes on to `alloc := c.smuxConn`. -/
def Client.create (c : Client) (env : OpenEnv) : Opened ⊕ (Client × List Event) :=
  match c.httpConn with
  | some _ => Sum.inr (c, [])
  | none =>
    match env.Dial with
    | Res.fail e =>
      Sum.inl { c := c, trace := [Event.Dial (Res.fail e)], result := OpenResult.err e }
    | Res.ok conn =>
      let c := { c with httpConn := some conn }
      match env.smuxClient conn with
      | Res.fail e =>
        Sum.inl { c := c,
                  trace := [Event.Dial (Res.ok conn), Event.smuxClient conn (Res.fail e),
                            Event.closeConn conn],
                  result := OpenResult.err e }
      | Res.ok conn2 =>
        Sum.inr ({ c with smuxConn := some conn2 },
                 [Event.Dial (Res.ok conn), Event.smuxClient conn (Res.ok conn2)])

/-- Source `Client.open` (client.go 52-91).  A method call on the nil session
or on the nil transport panics. -/
def Client.open (c : Client) (env : OpenEnv) : Opened :=
  match Client.create c env with
  | Sum.inl r => r
  | Sum.inr (c, tr) =>
    match c.smuxConn with
    | none => { c := c, trace := tr, result := OpenResult.panic }
    | some alloc =>
      match env.Open alloc with
      | Res.ok conn =>
        { c := c, trace := tr ++ [Event.Open alloc (Res.ok conn)],
          result := OpenResult.conn conn }
      | Res.fail e =>
        match c.smuxConn with
        | none =>
          { c := c, trace := tr ++ [Event.Open alloc (Res.fail e)],
            result := OpenResult.panic }
        | some s =>
          match c.httpConn with
          | none =>
            { c := c,
              trace := tr ++ [Event.Open alloc (Res.fail e), Event.closeSession s],
              result := OpenResult.panic }
          | some h =>
            { c := { c with httpConn := none },
              trace := tr ++ [Event.Open alloc (Res.fail e), Event.closeSession s,
                              Event.closeConn h],
              result := OpenResult.err e }

/-- Calls of `open` one after the other, each with its own answers; a panic
ends the run. -/
def Client.opens (c : Client) : List OpenEnv → Client × List Event × List OpenResult
  | [] => (c, [], [])
  | env :: envs =>
    let r := Client.open c env
    if r.result = OpenResult.panic then (r.c, r.trace, [r.result])
    else
      let rest := Client.opens r.c envs
      (rest.1, r.trace ++ rest.2.1, r.result :: rest.2.2)

/-- What the collaborators answer during one call of `ServeHTTP`;
`AcceptStream sess i` is the result of call number `i` on the session. -/
structure ServeEnv where
  Accept : Res
  smuxServer : Nat → Res
  AcceptStream : Nat → Nat → Res

/-- The `for` loop of `ServeHTTP` (server.go 43-52) from call number `i` on;
`none` when the fuel runs out before `AcceptStream` fails. -/
def Server.acceptLoop (env : ServeEnv) (sess : Nat) : Nat → Nat → Option (List Event)
  | 0, _ => none
  | fuel + 1, i =>
    match env.AcceptStream sess i with
    | Res.fail e => some [Event.AcceptStream sess (Res.fail e)]
    | Res.ok conn2 =>
      match Server.acceptLoop env sess fuel (i + 1) with
      | none => none
      | some tr =>
        some (Event.AcceptStream sess (Res.ok conn2) :: Event.ServeConn conn2 :: tr)

/-- Source `Server.ServeHTTP` (server.go 26-53): the calls made until it
returns, the deferred closes last and in reverse order of their `defer`. -/
def Server.ServeHTTP (env : ServeEnv) (fuel : Nat) : Option (List Event) :=
  match env.Accept with
  | Res.fail e => some [Event.Accept (Res.fail e)]
  | Res.ok conn =>
    match env.smuxServer conn with
    | Res.fail e =>
      some [Event.Accept (Res.ok conn), Event.smuxServer conn (Res.fail e),
            Event.closeConn conn]
    | Res.ok smuxServer =>
      match Server.acceptLoop env smuxServer fuel 0 with
      | none => none
      | some tr =>
        some ([Event.Accept (Res.ok conn), Event.smuxServer conn (Res.ok smuxServer)]
          ++ tr ++ [Event.closeSession smuxServer, Event.closeConn conn])

/-- The calls of a loop that accepts the streams `ss` in turn: each
`AcceptStream` followed by the dispatch of its stream. -/
def acceptedThenServed (sess : Nat) : List Nat → List Event
  | [] => []
  | st :: ss =>
    Event.AcceptStream sess (Res.ok st) :: Event.ServeConn st :: acceptedThenServed sess ss

/-- Whether an event is a call of `http2tcp.Dial`. -/
def Event.isDial : Event → Bool
  | Event.Dial _ => true
  | _ => false

/-- Whether an event is a call of `smux.Client`. -/
def Event.isSmuxClient : Event → Bool
  | Event.smuxClient _ _ => true
  | _ => false

/-! ## Reading and copying lemmas -/

theorem ReadFull_of_le (r : Reader) (buf : List Nat) (k : Nat) (h : k ≤ r.length) :
    ReadFull r buf k = { r := r.drop k, buf := r.take k ++ buf.drop k, err := none } := by
  simp [ReadFull, h]

theorem ReadFull_append (a r buf : List Nat) :
    ReadFull (a ++ r) buf a.length
      = { r := r, buf := a ++ buf.drop a.length, err := none } := by
  simp [ReadFull]

theorem copy_fst_of_length_le (dst src : List Nat) (h : src.length ≤ dst.length) :
    (copy dst src).1 = src ++ dst.drop src.length := by
  simp [copy, List.take_of_length_le h]

theorem copy_fst_of_length_eq (dst src : List Nat) (h : src.length = dst.length) :
    (copy dst src).1 = src := by
  simp [copy, ← h]

theorem writeBytes_unbounded (w : Writer) (b : List Nat) (h : w.room = none) :
    writeBytes w b = { w := { w with out := w.out ++ b }, out := Outcome.nil } := by
  simp [writeBytes, Writer.Write, h]

/-! ## HelloRequest and HelloResponse: what is written and what is read -/

theorem HelloRequest_Encode_eq (m : HelloRequest) (w : Writer)
    (hn : m.NumberOfAuth ≤ 16) (hl : m.AuthMethods.length = 16) :
    HelloRequest.Encode m w
      = writeBytes w (m.Version :: m.NumberOfAuth :: m.AuthMethods.take m.NumberOfAuth) := by
  have h1 : (2 + m.NumberOfAuth) % 256 = 2 + m.NumberOfAuth := by omega
  have hlen : (m.AuthMethods.take m.NumberOfAuth).length = m.NumberOfAuth := by
    simp [hl, hn]
  have hbuf : ((List.replicate 128 0).set 0 m.Version).set 1 m.NumberOfAuth
      = m.Version :: m.NumberOfAuth :: List.replicate 126 0 := rfl
  have hcopy : (copy (List.replicate 126 0) (m.AuthMethods.take m.NumberOfAuth)).1
      = m.AuthMethods.take m.NumberOfAuth ++ List.replicate (126 - m.NumberOfAuth) 0 := by
    rw [copy_fst_of_length_le _ _ (by rw [hlen, List.length_replicate]; omega), hlen,
      List.drop_replicate]
  unfold HelloRequest.Encode
  simp only [gt_iff_lt, Nat.not_lt.mpr hn, if_false, hbuf]
  have h2 : List.drop 2 (m.Version :: m.NumberOfAuth :: List.replicate 126 0)
      = List.replicate 126 0 := rfl
  have h3 : List.take 2 (m.Version :: m.NumberOfAuth :: List.replicate 126 0)
      = [m.Version, m.NumberOfAuth] := rfl
  rw [h2, h3, hcopy]
  have h4 : (1 + 1 + m.NumberOfAuth) % 256 = m.NumberOfAuth + 2 := by omega
  rw [h4]
  have h5 : ¬ (m.NumberOfAuth + 2 > ([m.Version, m.NumberOfAuth]
      ++ (m.AuthMethods.take m.NumberOfAuth
        ++ List.replicate (126 - m.NumberOfAuth) 0)).length) := by
    simp only [List.length_append, List.length_cons, List.length_nil, hlen,
      List.length_replicate]
    omega
  rw [if_neg h5]
  apply congrArg (writeBytes w)
  have h6 : [m.Version, m.NumberOfAuth] ++ (m.AuthMethods.take m.NumberOfAuth
        ++ List.replicate (126 - m.NumberOfAuth) 0)
      = (m.Version :: m.NumberOfAuth :: m.AuthMethods.take m.NumberOfAuth)
        ++ List.replicate (126 - m.NumberOfAuth) 0 := by simp
  rw [h6]
  apply List.take_left'
  simp [hlen]

theorem HelloRequest_Decode_eq (m : HelloRequest) (c : Nat) (a rest : List Nat)
    (h1 : 1 ≤ c) (h16 : c ≤ 16) (ha : a.length = c) (hl : m.AuthMethods.length = 16) :
    HelloRequest.Decode m (5 :: c :: (a ++ rest))
      = { msg := { Version := 5, NumberOfAuth := c,
                   AuthMethods := a ++ m.AuthMethods.drop c },
          r := rest, out := Outcome.nil } := by
  subst ha
  have hr : ReadFull (5 :: a.length :: (a ++ rest)) (List.replicate 128 0) 2
      = { r := a ++ rest, buf := 5 :: a.length :: List.replicate 126 0, err := none } := by
    rw [ReadFull_of_le _ _ _ (by simp)]; rfl
  unfold HelloRequest.Decode
  simp only [hr, ReadFull_append]
  have hg0 : (5 :: a.length :: List.replicate 126 0).getD 0 0 = 5 := rfl
  have hg1 : (5 :: a.length :: List.replicate 126 0).getD 1 0 = a.length := rfl
  simp only [hg0, hg1, ne_eq, not_true_eq_false, if_false]
  have hc : ¬ (a.length ≤ 0 ∨ a.length > 16) := by omega
  have hp : ¬ (a.length > (5 :: a.length :: List.replicate 126 0).length) := by
    simp; omega
  rw [if_neg hc, if_neg hp]
  simp only [ReadFull_append, List.take_left]
  rw [copy_fst_of_length_le _ _ (by omega)]

theorem ReadFull_cons1 (x : Nat) (r buf : List Nat) :
    ReadFull (x :: r) buf 1 = { r := r, buf := x :: buf.drop 1, err := none } := by
  simp [ReadFull]

theorem ReadFull_cons2 (x y : Nat) (r buf : List Nat) :
    ReadFull (x :: y :: r) buf 2 = { r := r, buf := x :: y :: buf.drop 2, err := none } := by
  simp [ReadFull]

theorem ReadFull_single2 (x : Nat) (buf : List Nat) :
    ReadFull [x] buf 2
      = { r := [], buf := x :: buf.drop 1, err := some Error.ErrUnexpectedEOF } := by
  simp [ReadFull]

theorem HelloRequest_Decode_reject (m : HelloRequest) (c : Nat) (s : List Nat)
    (hc : c = 0 ∨ 16 < c) :
    HelloRequest.Decode m (5 :: c :: s)
      = { msg := { m with Version := 5, NumberOfAuth := c }, r := s,
          out := Outcome.err Error.tooManyAuth } := by
  have hc2 : c ≤ 0 ∨ c > 16 := by omega
  unfold HelloRequest.Decode
  simp only [ReadFull_cons2, List.getD_cons_zero, List.getD_cons_succ, ne_eq,
    not_true_eq_false, if_false, if_pos hc2]

theorem HelloRequest_Decode_version (m : HelloRequest) (v c : Nat) (s : List Nat)
    (hv : v ≠ 5) :
    HelloRequest.Decode m (v :: c :: s)
      = { msg := { m with Version := v, NumberOfAuth := c }, r := s,
          out := Outcome.err Error.errVersion } := by
  unfold HelloRequest.Decode
  simp only [ReadFull_cons2, List.getD_cons_zero, List.getD_cons_succ, ne_eq, hv,
    not_false_eq_true, if_true]

theorem HelloResponse_Encode_eq (m : HelloResponse) (w : Writer) :
    HelloResponse.Encode m w = writeBytes w [m.Version, m.ChosenAuth] := rfl

theorem HelloResponse_Decode_eq (m : HelloResponse) (v c : Nat) (s : List Nat) :
    HelloResponse.Decode m (v :: c :: s)
      = { msg := { Version := v, ChosenAuth := c }, r := s,
          out := if v ≠ 5 then Outcome.err Error.errVersion else Outcome.nil } := by
  unfold HelloResponse.Decode
  simp only [ReadFull_cons2, List.getD_cons_zero, List.getD_cons_succ]
  split <;> rfl

/-! ## Writing into the buffer -/

theorem setAt_append_zero (pre tl : List Nat) (t v n : Nat) (hn : n = pre.length) :
    setAt (pre ++ t :: tl) n 0 v = some (pre ++ v :: tl) := by
  subst hn
  simp [setAt]

theorem setAt_append_one (pre tl : List Nat) (t0 t1 v n : Nat) (hn : n = pre.length) :
    setAt (pre ++ t0 :: t1 :: tl) n 1 v = some (pre ++ t0 :: v :: tl) := by
  subst hn
  simp [setAt, List.set_append]

theorem setAt_none (buf : List Nat) (n j v : Nat) (h : buf.length ≤ n + j) :
    setAt buf n j v = none := by
  simp only [setAt, ite_eq_right_iff]
  intro h'
  omega

theorem copyAt_append (pre tail b : List Nat) (n : Nat) (hn : n = pre.length) :
    copyAt (pre ++ tail) n b
      = some (pre ++ (b.take tail.length ++ tail.drop b.length),
              n + min tail.length b.length) := by
  subst hn
  simp [copyAt, copy]

theorem encodePort_append (pre tail : List Nat) (n port : Nat) (w : Writer)
    (hn : n = pre.length) :
    encodePort (pre ++ tail) n port w
      = if 2 ≤ tail.length then writeBytes w (pre ++ [(port / 256) % 256, port % 256])
        else { w := w, out := Outcome.panic } := by
  match tail with
  | [] =>
    have h0 : setAt pre n 0 ((port / 256) % 256) = none :=
      setAt_none _ n 0 _ (by simp [hn])
    simp [encodePort, h0]
  | [t] =>
    have h1 : setAt (pre ++ [(port / 256) % 256]) n 1 (port % 256) = none :=
      setAt_none _ n 1 _ (by simp [hn])
    simp [encodePort, setAt_append_zero pre [] t _ n hn, h1]
  | t0 :: t1 :: tl =>
    have h : ¬ (n + 2 > (pre ++ (port / 256) % 256 :: port % 256 :: tl).length) := by
      simp [hn]
    have ht : List.take (n + 2) (pre ++ (port / 256) % 256 :: port % 256 :: tl)
        = pre ++ [(port / 256) % 256, port % 256] := by
      have : pre ++ (port / 256) % 256 :: port % 256 :: tl
          = (pre ++ [(port / 256) % 256, port % 256]) ++ tl := by simp
      rw [this]
      exact List.take_left' (by simp [hn])
    simp only [encodePort, setAt_append_zero pre (t1 :: tl) t0 _ n hn,
      setAt_append_one pre tl _ t1 _ n hn, if_neg h, ht]
    rw [if_pos (by simp)]

theorem copyAt_encodePort (pre tail b : List Nat) (n port : Nat) (w : Writer)
    (hn : n = pre.length) :
    (match copyAt (pre ++ tail) n b with
      | none => ({ w := w, out := Outcome.panic } : Encoded)
      | some (buf, n) => encodePort buf n port w)
      = if b.length + 2 ≤ tail.length then
          writeBytes w (pre ++ b ++ [(port / 256) % 256, port % 256])
        else { w := w, out := Outcome.panic } := by
  rw [copyAt_append pre tail b n hn]
  dsimp only
  have hre : pre ++ (b.take tail.length ++ tail.drop b.length)
      = (pre ++ b.take tail.length) ++ tail.drop b.length := by simp
  rw [hre, encodePort_append _ _ _ _ _ (by simp [hn])]
  by_cases h : b.length + 2 ≤ tail.length
  · have h2 : 2 ≤ (tail.drop b.length).length := by simp; omega
    rw [if_pos h, if_pos h2, List.take_of_length_le (by omega)]
  · have h2 : ¬ 2 ≤ (tail.drop b.length).length := by simp; omega
    rw [if_neg h, if_neg h2]

/-! ## ConnectionRequest and ConnectionResponse: what is written -/

/-- The four header bytes at the front of the 512-byte buffer. -/
theorem header512 (v c t : Nat) :
    ((((List.replicate 512 0).set 0 v).set 1 c).set 2 0).set 3 t
      = [v, c, 0, t] ++ List.replicate 508 0 := rfl

theorem ConnectionRequest_Encode_v4 (m : ConnectionRequest) (w : Writer) (ip : List Nat)
    (ht : m.Address.Typ = IPv4) (hip : m.Address.IP = Addr.v4 ip) (hl : ip.length = 4) :
    ConnectionRequest.Encode m w
      = writeBytes w ([m.Version, m.Command, 0, 1] ++ ip
          ++ [(m.Address.Port / 256) % 256, m.Address.Port % 256]) := by
  unfold ConnectionRequest.Encode
  dsimp only
  rw [header512, if_pos ht, hip]
  simp only [Addr.As4]
  have hzl : (List.replicate 508 0).length = 508 := List.length_replicate _ _
  generalize List.replicate 508 0 = z at hzl ⊢
  rw [copyAt_encodePort [m.Version, m.Command, 0, m.Address.Typ] z ip 4 _ _ rfl,
    if_pos (by omega), ht]
  rfl

theorem ConnectionRequest_Encode_v6 (m : ConnectionRequest) (w : Writer)
    (ip zone : List Nat)
    (ht : m.Address.Typ = IPv6) (hip : m.Address.IP = Addr.v6 ip zone)
    (hl : ip.length = 16) :
    ConnectionRequest.Encode m w
      = writeBytes w ([m.Version, m.Command, 0, 4] ++ ip
          ++ [(m.Address.Port / 256) % 256, m.Address.Port % 256]) := by
  have h4 : ¬ m.Address.Typ = IPv4 := by rw [ht]; decide
  unfold ConnectionRequest.Encode
  dsimp only
  rw [header512, if_neg h4, if_pos ht, hip]
  simp only [Addr.As16]
  have hzl : (List.replicate 508 0).length = 508 := List.length_replicate _ _
  generalize List.replicate 508 0 = z at hzl ⊢
  rw [copyAt_encodePort [m.Version, m.Command, 0, m.Address.Typ] z ip 4 _ _ rfl,
    if_pos (by omega), ht]
  rfl

theorem ConnectionRequest_Encode_domain (m : ConnectionRequest) (w : Writer)
    (ht : m.Address.Typ = Domain) :
    ConnectionRequest.Encode m w
      = if m.Address.Domain.length ≤ 505 then
          writeBytes w ([m.Version, m.Command, 0, 3, m.Address.Domain.length % 256]
            ++ m.Address.Domain
            ++ [(m.Address.Port / 256) % 256, m.Address.Port % 256])
        else { w := w, out := Outcome.panic } := by
  have h4 : ¬ m.Address.Typ = IPv4 := by rw [ht]; decide
  have h6 : ¬ m.Address.Typ = IPv6 := by rw [ht]; decide
  unfold ConnectionRequest.Encode
  dsimp only
  rw [header512, if_neg h4, if_neg h6, if_pos ht]
  have hz : List.replicate 508 0 = 0 :: List.replicate 507 0 := rfl
  have hzl : (List.replicate 507 0).length = 507 := List.length_replicate _ _
  rw [hz]
  generalize List.replicate 507 0 = z at hzl ⊢
  rw [setAt_append_zero [m.Version, m.Command, 0, m.Address.Typ] z 0 _ 4 rfl]
  dsimp only
  have hre : [m.Version, m.Command, 0, m.Address.Typ] ++ m.Address.Domain.length % 256 :: z
      = [m.Version, m.Command, 0, m.Address.Typ, m.Address.Domain.length % 256] ++ z := rfl
  rw [hre, copyAt_encodePort
    [m.Version, m.Command, 0, m.Address.Typ, m.Address.Domain.length % 256] z
    m.Address.Domain (4 + 1) _ _ rfl, ht, hzl]
  by_cases h : m.Address.Domain.length ≤ 505
  · rw [if_pos h, if_pos (by omega)]; rfl
  · rw [if_neg h, if_neg (by omega)]

theorem ConnectionResponse_Encode_v4 (m : ConnectionResponse) (w : Writer) (ip : List Nat)
    (ht : m.Address.Typ = IPv4) (hip : m.Address.IP = Addr.v4 ip) (hl : ip.length = 4) :
    ConnectionResponse.Encode m w
      = writeBytes w ([m.Version, m.Status, 0, 1] ++ ip
          ++ [(m.Address.Port / 256) % 256, m.Address.Port % 256]) := by
  unfold ConnectionResponse.Encode
  dsimp only
  rw [header512, if_pos ht, hip]
  simp only [Addr.As4]
  have hzl : (List.replicate 508 0).length = 508 := List.length_replicate _ _
  generalize List.replicate 508 0 = z at hzl ⊢
  rw [copyAt_encodePort [m.Version, m.Status, 0, m.Address.Typ] z ip 4 _ _ rfl,
    if_pos (by omega), ht]
  rfl

theorem ConnectionResponse_Encode_v6 (m : ConnectionResponse) (w : Writer)
    (ip zone : List Nat)
    (ht : m.Address.Typ = IPv6) (hip : m.Address.IP = Addr.v6 ip zone)
    (hl : ip.length = 16) :
    ConnectionResponse.Encode m w
      = writeBytes w ([m.Version, m.Status, 0, 4] ++ ip
          ++ [(m.Address.Port / 256) % 256, m.Address.Port % 256]) := by
  have h4 : ¬ m.Address.Typ = IPv4 := by rw [ht]; decide
  unfold ConnectionResponse.Encode
  dsimp only
  rw [header512, if_neg h4, if_pos ht, hip]
  simp only [Addr.As16]
  have hzl : (List.replicate 508 0).length = 508 := List.length_replicate _ _
  generalize List.replicate 508 0 = z at hzl ⊢
  rw [copyAt_encodePort [m.Version, m.Status, 0, m.Address.Typ] z ip 4 _ _ rfl,
    if_pos (by omega), ht]
  rfl

/-! ## ConnectionRequest and ConnectionResponse: what is read -/

theorem ReadFull_err (r buf : List Nat) (k : Nat) :
    (ReadFull r buf k).err = none ∨ (ReadFull r buf k).err = some Error.EOF
      ∨ (ReadFull r buf k).err = some Error.ErrUnexpectedEOF := by
  unfold ReadFull
  split
  · exact Or.inl rfl
  · by_cases h : r.length = 0
    · right; left; simp [h]
    · right; right; simp [h]

theorem ReadFull_length (r buf : List Nat) (k : Nat) (hk : k ≤ buf.length) :
    (ReadFull r buf k).buf.length = buf.length := by
  unfold ReadFull
  split
  · simp; omega
  · simp; omega

theorem port_of_bytes (p0 p1 : Nat) (h0 : p0 < 256) (h1 : p1 < 256) :
    ((p0 * 256) % 65536 + p1) % 65536 = 256 * p0 + p1 := by
  omega

theorem port_roundtrip (p : Nat) (h : p < 65536) :
    (((p / 256) % 256 * 256) % 65536 + p % 256) % 65536 = p := by
  omega

theorem ConnectionRequest_decodePort_eq (m : ConnectionRequest) (p0 p1 : Nat)
    (rest buf : List Nat) :
    ConnectionRequest.decodePort m (p0 :: p1 :: rest) buf
      = { msg := { m with Address := { m.Address with
                    Port := ((p0 * 256) % 65536 + p1) % 65536 } },
          r := rest, out := Outcome.nil } := by
  unfold ConnectionRequest.decodePort
  simp only [ReadFull_cons2, List.getD_cons_zero, List.getD_cons_succ]

theorem ConnectionResponse_decodePort_eq (m : ConnectionResponse) (p0 p1 : Nat)
    (rest buf : List Nat) :
    ConnectionResponse.decodePort m (p0 :: p1 :: rest) buf
      = { msg := { m with Address := { m.Address with
                    Port := ((p0 * 256) % 65536 + p1) % 65536 } },
          r := rest, out := Outcome.nil } := by
  unfold ConnectionResponse.decodePort
  simp only [ReadFull_cons2, List.getD_cons_zero, List.getD_cons_succ]

theorem ConnectionRequest_decodeAddress_v4 (m : ConnectionRequest) (ip : List Nat)
    (p0 p1 : Nat) (rest buf : List Nat)
    (ht : m.Address.Typ = IPv4) (hl : ip.length = 4) :
    ConnectionRequest.decodeAddress m (ip ++ p0 :: p1 :: rest) buf
      = { msg := { m with Address := { m.Address with
                    IP := Addr.v4 ip, Port := ((p0 * 256) % 65536 + p1) % 65536 } },
          r := rest, out := Outcome.nil } := by
  unfold ConnectionRequest.decodeAddress
  rw [if_pos ht, ← hl]
  simp only [ReadFull_append, List.take_left, ConnectionRequest_decodePort_eq]
  rw [copy_fst_of_length_eq _ _ (by simp [hl])]
  rfl

theorem ConnectionRequest_decodeAddress_v6 (m : ConnectionRequest) (ip : List Nat)
    (p0 p1 : Nat) (rest buf : List Nat)
    (ht : m.Address.Typ = IPv6) (hl : ip.length = 16) :
    ConnectionRequest.decodeAddress m (ip ++ p0 :: p1 :: rest) buf
      = { msg := { m with Address := { m.Address with
                    IP := Addr.v6 ip [], Port := ((p0 * 256) % 65536 + p1) % 65536 } },
          r := rest, out := Outcome.nil } := by
  have h4 : ¬ m.Address.Typ = IPv4 := by rw [ht]; decide
  unfold ConnectionRequest.decodeAddress
  rw [if_neg h4, if_pos ht, ← hl]
  simp only [ReadFull_append, List.take_left, ConnectionRequest_decodePort_eq]
  rw [copy_fst_of_length_eq _ _ (by simp [hl])]
  rfl

theorem ConnectionRequest_decodeAddress_domain (m : ConnectionRequest) (name : List Nat)
    (p0 p1 : Nat) (rest buf : List Nat)
    (ht : m.Address.Typ = Domain) (h1 : 1 ≤ name.length) (h255 : name.length ≤ 255)
    (hb : buf.length = 256) :
    ConnectionRequest.decodeAddress m (name.length :: (name ++ p0 :: p1 :: rest)) buf
      = { msg := { m with Address := { m.Address with
                    Domain := name, Port := ((p0 * 256) % 65536 + p1) % 65536 } },
          r := rest, out := Outcome.nil } := by
  have h4 : ¬ m.Address.Typ = IPv4 := by rw [ht]; decide
  have h6 : ¬ m.Address.Typ = IPv6 := by rw [ht]; decide
  have hn : ¬ (name.length < 1 ∨ name.length > 255) := by omega
  have hp : ¬ (name.length > (name.length :: List.drop 1 buf).length) := by
    simp; omega
  unfold ConnectionRequest.decodeAddress
  rw [if_neg h4, if_neg h6, if_pos ht]
  simp only [ReadFull_cons1, List.getD_cons_zero, if_neg hn, if_neg hp, ReadFull_append,
    List.take_left, ConnectionRequest_decodePort_eq]

theorem ConnectionRequest_decodeAddress_domain_zero (m : ConnectionRequest)
    (s buf : List Nat) (ht : m.Address.Typ = Domain) :
    ConnectionRequest.decodeAddress m (0 :: s) buf
      = { msg := m, r := s, out := Outcome.err Error.domainTooLong } := by
  have h4 : ¬ m.Address.Typ = IPv4 := by rw [ht]; decide
  have h6 : ¬ m.Address.Typ = IPv6 := by rw [ht]; decide
  unfold ConnectionRequest.decodeAddress
  rw [if_neg h4, if_neg h6, if_pos ht]
  simp only [ReadFull_cons1, List.getD_cons_zero]
  rw [if_pos (by omega)]

theorem Command_String_unknown_iff (c : Nat) :
    Command.String c = "UnknownCommand" ↔ ¬ (c = 1 ∨ c = 2 ∨ c = 3) := by
  unfold Command.String TCPStream TCPBinding UDPBinding
  split_ifs with h1 h2 h3
  · simp [h1]
  · simp [h2]
  · simp [h3]
  · simp [h1, h2, h3]

theorem Status_String_unknown_iff (s : Nat) :
    Status.String s = "UnknownStatus" ↔ 8 < s := by
  unfold Status.String
  split_ifs <;> simp <;> omega

theorem ConnectionRequest_Decode_header (m : ConnectionRequest) (c t : Nat) (s : List Nat)
    (hc : c = 1 ∨ c = 2 ∨ c = 3) :
    ∃ buf : List Nat, buf.length = 256 ∧
      ConnectionRequest.Decode m (5 :: c :: 0 :: t :: s)
        = ConnectionRequest.decodeAddress
            { Version := 5, Command := c, Address := { m.Address with Typ := t } } s buf := by
  have hk : ¬ Command.String c = "UnknownCommand" := by
    rw [Command_String_unknown_iff]; exact not_not.mpr hc
  refine ⟨t :: List.drop 1 (0 :: List.drop 1 (5 :: c :: List.drop 2 (List.replicate 256 0))),
    ?_, ?_⟩
  · simp only [List.length_cons, List.length_drop, List.length_replicate]
  · unfold ConnectionRequest.Decode
    simp only [ReadFull_cons2, ReadFull_cons1, List.getD_cons_zero, List.getD_cons_succ,
      ne_eq, not_true_eq_false, if_false, hk]

theorem ConnectionResponse_Decode_header (m : ConnectionResponse) (c t : Nat) (s : List Nat)
    (hc : c ≤ 8) :
    ∃ buf : List Nat, buf.length = 256 ∧
      ConnectionResponse.Decode m (5 :: c :: 0 :: t :: s)
        = ConnectionResponse.decodeAddress
            { Version := 5, Status := c, Address := { m.Address with Typ := t } } s buf := by
  have hk : ¬ Status.String c = "UnknownStatus" := by
    rw [Status_String_unknown_iff]; omega
  refine ⟨t :: List.drop 1 (0 :: List.drop 1 (5 :: c :: List.drop 2 (List.replicate 256 0))),
    ?_, ?_⟩
  · simp only [List.length_cons, List.length_drop, List.length_replicate]
  · unfold ConnectionResponse.Decode
    simp only [ReadFull_cons2, ReadFull_cons1, List.getD_cons_zero, List.getD_cons_succ,
      ne_eq, not_true_eq_false, if_false, hk]

theorem ConnectionResponse_decodeAddress_v4 (m : ConnectionResponse) (ip : List Nat)
    (p0 p1 : Nat) (rest buf : List Nat)
    (ht : m.Address.Typ = IPv4) (hl : ip.length = 4) :
    ConnectionResponse.decodeAddress m (ip ++ p0 :: p1 :: rest) buf
      = { msg := { m with Address := { m.Address with
                    IP := Addr.v4 ip, Port := ((p0 * 256) % 65536 + p1) % 65536 } },
          r := rest, out := Outcome.nil } := by
  unfold ConnectionResponse.decodeAddress
  rw [if_pos ht, ← hl]
  simp only [ReadFull_append, List.take_left, ConnectionResponse_decodePort_eq]
  rw [copy_fst_of_length_eq _ _ (by simp [hl])]
  rfl

theorem ConnectionResponse_decodeAddress_v6 (m : ConnectionResponse) (ip : List Nat)
    (p0 p1 : Nat) (rest buf : List Nat)
    (ht : m.Address.Typ = IPv6) (hl : ip.length = 16) :
    ConnectionResponse.decodeAddress m (ip ++ p0 :: p1 :: rest) buf
      = { msg := { m with Address := { m.Address with
                    IP := Addr.v6 ip [], Port := ((p0 * 256) % 65536 + p1) % 65536 } },
          r := rest, out := Outcome.nil } := by
  have h4 : ¬ m.Address.Typ = IPv4 := by rw [ht]; decide
  unfold ConnectionResponse.decodeAddress
  rw [if_neg h4, if_pos ht, ← hl]
  simp only [ReadFull_append, List.take_left, ConnectionResponse_decodePort_eq]
  rw [copy_fst_of_length_eq _ _ (by simp [hl])]
  rfl

/-! ## Round trips -/

/-- C1: a ConnectionRequest with Version 5, a defined Command, any 16-bit Port
and a valid address (IPv4 with a 4-byte IP, IPv6 with a 16-byte IP without
zone, or Domain with a name of 1 to 255 bytes, the other variant's fields
zero) is encoded without error into an accepting buffer, and decoding the
written bytes into a fresh message succeeds, consumes them all and yields a
message equal to the original. -/
theorem ConnectionRequest_roundtrip (m : ConnectionRequest)
    (hv : m.Version = 5)
    (hc : m.Command = TCPStream ∨ m.Command = TCPBinding ∨ m.Command = UDPBinding)
    (ha : m.Address.valid) :
    (ConnectionRequest.Encode m Writer.buffer).out = Outcome.nil ∧
    ConnectionRequest.Decode ConnectionRequest.fresh
        (ConnectionRequest.Encode m Writer.buffer).w.out
      = { msg := m, r := [], out := Outcome.nil } := by
  obtain ⟨v, c, ⟨t, d, a, p⟩⟩ := m
  simp only [TCPStream, TCPBinding, UDPBinding] at hv hc
  subst hv
  obtain ⟨hp, h⟩ := ha
  simp only at hp
  rcases h with ⟨ht, hd, ip, hip, hl, -⟩ | ⟨ht, hd, ip, hip, hl, -⟩ | ⟨ht, hip, h1, h255, -⟩
  · simp only at ht hd hip
    subst ht hd hip
    rw [ConnectionRequest_Encode_v4 _ _ ip rfl rfl hl, writeBytes_unbounded _ _ rfl]
    refine ⟨rfl, ?_⟩
    obtain ⟨buf, -, hdec⟩ := ConnectionRequest_Decode_header ConnectionRequest.fresh c 1
      (ip ++ [(p / 256) % 256, p % 256]) hc
    simp only [Writer.buffer, List.nil_append, List.cons_append, List.append_assoc] at hdec ⊢
    rw [hdec, ConnectionRequest_decodeAddress_v4 _ ip _ _ [] buf rfl hl, port_roundtrip p hp]
    rfl
  · simp only at ht hd hip
    subst ht hd hip
    rw [ConnectionRequest_Encode_v6 _ _ ip [] rfl rfl hl, writeBytes_unbounded _ _ rfl]
    refine ⟨rfl, ?_⟩
    obtain ⟨buf, -, hdec⟩ := ConnectionRequest_Decode_header ConnectionRequest.fresh c 4
      (ip ++ [(p / 256) % 256, p % 256]) hc
    simp only [Writer.buffer, List.nil_append, List.cons_append, List.append_assoc] at hdec ⊢
    rw [hdec, ConnectionRequest_decodeAddress_v6 _ ip _ _ [] buf rfl hl, port_roundtrip p hp]
    rfl
  · simp only at ht hip h1 h255
    subst ht hip
    rw [ConnectionRequest_Encode_domain _ _ rfl, if_pos (by simp only; omega),
      writeBytes_unbounded _ _ rfl]
    refine ⟨rfl, ?_⟩
    obtain ⟨buf, hb, hdec⟩ := ConnectionRequest_Decode_header ConnectionRequest.fresh c 3
      (d.length :: (d ++ [(p / 256) % 256, p % 256])) hc
    have hmod : d.length % 256 = d.length := by omega
    simp only [Writer.buffer, List.nil_append, List.cons_append, List.append_assoc, hmod]
      at hdec ⊢
    rw [hdec, ConnectionRequest_decodeAddress_domain _ d _ _ [] buf rfl h1 h255 hb,
      port_roundtrip p hp]
    rfl

theorem ConnectionRequest_roundtrip_witness :
    (ConnectionRequest.Encode
        { Version := 5, Command := 1,
          Address := { Typ := 3, Domain := [97, 46, 98], IP := Addr.zero, Port := 443 } }
        Writer.buffer).out = Outcome.nil ∧
    ConnectionRequest.Decode ConnectionRequest.fresh
        (ConnectionRequest.Encode
          { Version := 5, Command := 1,
            Address := { Typ := 3, Domain := [97, 46, 98], IP := Addr.zero, Port := 443 } }
          Writer.buffer).w.out
      = { msg := { Version := 5, Command := 1,
                   Address := { Typ := 3, Domain := [97, 46, 98], IP := Addr.zero,
                                Port := 443 } },
          r := [], out := Outcome.nil } :=
  ConnectionRequest_roundtrip
    { Version := 5, Command := 1,
      Address := { Typ := 3, Domain := [97, 46, 98], IP := Addr.zero, Port := 443 } }
    rfl (Or.inl rfl)
    ⟨by decide, Or.inr (Or.inr ⟨rfl, rfl, by decide, by decide, by decide⟩)⟩

/-- C2: a ConnectionResponse with Version 5, one of the nine defined Status
values, any 16-bit Port and an address of Type IPv4 with a 4-byte IP or Type
IPv6 with a 16-byte IP without zone is encoded without error into an
accepting buffer, and decoding the written bytes into a fresh message
succeeds, consumes them all and yields a message equal to the original. -/
theorem ConnectionResponse_roundtrip (m : ConnectionResponse)
    (hv : m.Version = 5) (hs : m.Status ≤ 8) (ha : m.Address.valid) :
    (ConnectionResponse.Encode m Writer.buffer).out = Outcome.nil ∧
    ConnectionResponse.Decode ConnectionResponse.fresh
        (ConnectionResponse.Encode m Writer.buffer).w.out
      = { msg := m, r := [], out := Outcome.nil } := by
  obtain ⟨v, c, ⟨t, a, p⟩⟩ := m
  simp only at hv hs
  subst hv
  obtain ⟨hp, h⟩ := ha
  simp only at hp
  rcases h with ⟨ht, ip, hip, hl, -⟩ | ⟨ht, ip, hip, hl, -⟩
  · simp only at ht hip
    subst ht hip
    rw [ConnectionResponse_Encode_v4 _ _ ip rfl rfl hl, writeBytes_unbounded _ _ rfl]
    refine ⟨rfl, ?_⟩
    obtain ⟨buf, -, hdec⟩ := ConnectionResponse_Decode_header ConnectionResponse.fresh c 1
      (ip ++ [(p / 256) % 256, p % 256]) hs
    simp only [Writer.buffer, List.nil_append, List.cons_append, List.append_assoc] at hdec ⊢
    rw [hdec, ConnectionResponse_decodeAddress_v4 _ ip _ _ [] buf rfl hl, port_roundtrip p hp]
    rfl
  · simp only at ht hip
    subst ht hip
    rw [ConnectionResponse_Encode_v6 _ _ ip [] rfl rfl hl, writeBytes_unbounded _ _ rfl]
    refine ⟨rfl, ?_⟩
    obtain ⟨buf, -, hdec⟩ := ConnectionResponse_Decode_header ConnectionResponse.fresh c 4
      (ip ++ [(p / 256) % 256, p % 256]) hs
    simp only [Writer.buffer, List.nil_append, List.cons_append, List.append_assoc] at hdec ⊢
    rw [hdec, ConnectionResponse_decodeAddress_v6 _ ip _ _ [] buf rfl hl, port_roundtrip p hp]
    rfl

theorem ConnectionResponse_roundtrip_witness :
    (ConnectionResponse.Encode
        { Version := 5, Status := 0,
          Address := { Typ := 1, IP := Addr.v4 [10, 0, 0, 1], Port := 1080 } }
        Writer.buffer).out = Outcome.nil ∧
    ConnectionResponse.Decode ConnectionResponse.fresh
        (ConnectionResponse.Encode
          { Version := 5, Status := 0,
            Address := { Typ := 1, IP := Addr.v4 [10, 0, 0, 1], Port := 1080 } }
          Writer.buffer).w.out
      = { msg := { Version := 5, Status := 0,
                   Address := { Typ := 1, IP := Addr.v4 [10, 0, 0, 1], Port := 1080 } },
          r := [], out := Outcome.nil } :=
  ConnectionResponse_roundtrip
    { Version := 5, Status := 0,
      Address := { Typ := 1, IP := Addr.v4 [10, 0, 0, 1], Port := 1080 } }
    rfl (by decide)
    ⟨by decide, Or.inl ⟨rfl, [10, 0, 0, 1], rfl, rfl, by decide⟩⟩

/-- C3: the handshake messages round-trip.  A HelloRequest with Version 5 and
1 to 16 auth methods is encoded without error, and decoding the written bytes
into a fresh message succeeds, consumes them all and returns the same
Version, the same NumberOfAuth and the same first NumberOfAuth auth-method
bytes.  A HelloResponse with Version 5 is encoded without error and decoding
the written bytes into a fresh message returns a message equal to it. -/
theorem Hello_roundtrip (m : HelloRequest) (m2 : HelloResponse)
    (hv : m.Version = 5) (h1 : 1 ≤ m.NumberOfAuth) (h16 : m.NumberOfAuth ≤ 16)
    (hl : m.AuthMethods.length = 16) (hv2 : m2.Version = 5) :
    ((HelloRequest.Encode m Writer.buffer).out = Outcome.nil ∧
      (HelloRequest.Decode HelloRequest.fresh
        (HelloRequest.Encode m Writer.buffer).w.out).out = Outcome.nil ∧
      (HelloRequest.Decode HelloRequest.fresh
        (HelloRequest.Encode m Writer.buffer).w.out).r = [] ∧
      (HelloRequest.Decode HelloRequest.fresh
        (HelloRequest.Encode m Writer.buffer).w.out).msg.Version = m.Version ∧
      (HelloRequest.Decode HelloRequest.fresh
        (HelloRequest.Encode m Writer.buffer).w.out).msg.NumberOfAuth = m.NumberOfAuth ∧
      (HelloRequest.Decode HelloRequest.fresh
        (HelloRequest.Encode m Writer.buffer).w.out).msg.AuthMethods.take m.NumberOfAuth
        = m.AuthMethods.take m.NumberOfAuth) ∧
    ((HelloResponse.Encode m2 Writer.buffer).out = Outcome.nil ∧
      HelloResponse.Decode HelloResponse.fresh
          (HelloResponse.Encode m2 Writer.buffer).w.out
        = { msg := m2, r := [], out := Outcome.nil }) := by
  constructor
  · have hlen : (m.AuthMethods.take m.NumberOfAuth).length = m.NumberOfAuth := by
      simp [hl, h16]
    have hdec := HelloRequest_Decode_eq HelloRequest.fresh m.NumberOfAuth
      (m.AuthMethods.take m.NumberOfAuth) [] h1 h16 hlen rfl
    rw [HelloRequest_Encode_eq m _ h16 hl, writeBytes_unbounded _ _ rfl]
    simp only [Writer.buffer, List.nil_append, List.append_nil] at hdec ⊢
    rw [hv, hdec]
    refine ⟨trivial, rfl, rfl, rfl, rfl, ?_⟩
    exact List.take_left' hlen
  · obtain ⟨v, c⟩ := m2
    simp only at hv2
    subst hv2
    rw [HelloResponse_Encode_eq, writeBytes_unbounded _ _ rfl]
    simp only [Writer.buffer, List.nil_append]
    rw [HelloResponse_Decode_eq]
    exact ⟨trivial, rfl⟩

theorem Hello_roundtrip_witness :
    (5 = 5 ∧ 1 ≤ 2 ∧ 2 ≤ 16) ∧
    ((HelloRequest.Encode
        { Version := 5, NumberOfAuth := 2,
          AuthMethods := [0, 2, 0, 0, 0, 0, 0, 0, 0, 0, 0, 0, 0, 0, 0, 0] }
        Writer.buffer).out = Outcome.nil ∧
      (HelloRequest.Decode HelloRequest.fresh
        (HelloRequest.Encode
          { Version := 5, NumberOfAuth := 2,
            AuthMethods := [0, 2, 0, 0, 0, 0, 0, 0, 0, 0, 0, 0, 0, 0, 0, 0] }
          Writer.buffer).w.out).out = Outcome.nil) ∧
    HelloResponse.Decode HelloResponse.fresh
        (HelloResponse.Encode { Version := 5, ChosenAuth := 2 } Writer.buffer).w.out
      = { msg := { Version := 5, ChosenAuth := 2 }, r := [], out := Outcome.nil } := by
  have h := Hello_roundtrip
    { Version := 5, NumberOfAuth := 2,
      AuthMethods := [0, 2, 0, 0, 0, 0, 0, 0, 0, 0, 0, 0, 0, 0, 0, 0] }
    { Version := 5, ChosenAuth := 2 } rfl (by decide) (by decide) rfl rfl
  exact ⟨by decide, ⟨h.1.1, h.1.2.1⟩, h.2.2⟩

/-! ## Version check -/

theorem HelloRequest_Decode_single (m : HelloRequest) (v : Nat) :
    HelloRequest.Decode m [v]
      = { msg := m, r := [], out := Outcome.err Error.ErrUnexpectedEOF } := by
  unfold HelloRequest.Decode
  simp only [ReadFull_single2]

theorem HelloResponse_Decode_single (m : HelloResponse) (v : Nat) :
    HelloResponse.Decode m [v]
      = { msg := m, r := [], out := Outcome.err Error.ErrUnexpectedEOF } := by
  unfold HelloResponse.Decode
  simp only [ReadFull_single2]

theorem ConnectionRequest_Decode_single (m : ConnectionRequest) (v : Nat) :
    ConnectionRequest.Decode m [v]
      = { msg := m, r := [], out := Outcome.err Error.ErrUnexpectedEOF } := by
  unfold ConnectionRequest.Decode
  simp only [ReadFull_single2]

theorem ConnectionResponse_Decode_single (m : ConnectionResponse) (v : Nat) :
    ConnectionResponse.Decode m [v]
      = { msg := m, r := [], out := Outcome.err Error.ErrUnexpectedEOF } := by
  unfold ConnectionResponse.Decode
  simp only [ReadFull_single2]

theorem ConnectionRequest_Decode_version (m : ConnectionRequest) (v c : Nat) (s : List Nat)
    (hv : v ≠ 5) :
    ConnectionRequest.Decode m (v :: c :: s)
      = { msg := { m with Version := v }, r := s, out := Outcome.err Error.errVersion } := by
  unfold ConnectionRequest.Decode
  simp only [ReadFull_cons2, List.getD_cons_zero, ne_eq, hv, not_false_eq_true, if_true]

theorem ConnectionResponse_Decode_version (m : ConnectionResponse) (v c : Nat) (s : List Nat)
    (hv : v ≠ 5) :
    ConnectionResponse.Decode m (v :: c :: s)
      = { msg := { m with Version := v }, r := s, out := Outcome.err Error.errVersion } := by
  unfold ConnectionResponse.Decode
  simp only [ReadFull_cons2, List.getD_cons_zero, ne_eq, hv, not_false_eq_true, if_true]

/-- C4, as stated, fails on a one-byte stream: the stream `[4]` is non-empty
and its first byte is not 5, yet HelloRequest.Decode returns
io.ErrUnexpectedEOF, not errVersion, because the version byte is read
together with the byte after it. -/
theorem Decode_version_one_byte_stream :
    (HelloRequest.Decode HelloRequest.fresh [4]).out
        = Outcome.err Error.ErrUnexpectedEOF ∧
      (HelloRequest.Decode HelloRequest.fresh [4]).out ≠ Outcome.err Error.errVersion := by
  rw [HelloRequest_Decode_single]
  exact ⟨rfl, by decide⟩

/-- C4 (amended): for each of the four decoders and every input stream of at
least two bytes whose first byte is not 5, Decode fails with errVersion,
whatever the second byte and the bytes after it are, and consumes exactly the
first two bytes; on a stream of one byte Decode fails with
io.ErrUnexpectedEOF instead. -/
theorem Decode_version_mismatch (v b : Nat) (rest : List Nat) (hv : v ≠ 5)
    (m1 : HelloRequest) (m2 : HelloResponse) (m3 : ConnectionRequest)
    (m4 : ConnectionResponse) :
    (((HelloRequest.Decode m1 (v :: b :: rest)).out = Outcome.err Error.errVersion ∧
        (HelloRequest.Decode m1 (v :: b :: rest)).r = rest) ∧
      ((HelloResponse.Decode m2 (v :: b :: rest)).out = Outcome.err Error.errVersion ∧
        (HelloResponse.Decode m2 (v :: b :: rest)).r = rest) ∧
      ((ConnectionRequest.Decode m3 (v :: b :: rest)).out = Outcome.err Error.errVersion ∧
        (ConnectionRequest.Decode m3 (v :: b :: rest)).r = rest) ∧
      ((ConnectionResponse.Decode m4 (v :: b :: rest)).out = Outcome.err Error.errVersion ∧
        (ConnectionResponse.Decode m4 (v :: b :: rest)).r = rest)) ∧
    ((HelloRequest.Decode m1 [v]).out = Outcome.err Error.ErrUnexpectedEOF ∧
      (HelloResponse.Decode m2 [v]).out = Outcome.err Error.ErrUnexpectedEOF ∧
      (ConnectionRequest.Decode m3 [v]).out = Outcome.err Error.ErrUnexpectedEOF ∧
      (ConnectionResponse.Decode m4 [v]).out = Outcome.err Error.ErrUnexpectedEOF) := by
  rw [HelloRequest_Decode_version _ _ _ _ hv, HelloResponse_Decode_eq,
    ConnectionRequest_Decode_version _ _ _ _ hv, ConnectionResponse_Decode_version _ _ _ _ hv,
    HelloRequest_Decode_single, HelloResponse_Decode_single, ConnectionRequest_Decode_single,
    ConnectionResponse_Decode_single]
  simp [hv]

theorem Decode_version_mismatch_witness :
    (4 ≠ 5) ∧
    (((HelloRequest.Decode HelloRequest.fresh [4, 1, 0]).out = Outcome.err Error.errVersion ∧
        (HelloRequest.Decode HelloRequest.fresh [4, 1, 0]).r = [0]) ∧
      ((HelloResponse.Decode HelloResponse.fresh [4, 1, 0]).out
          = Outcome.err Error.errVersion ∧
        (HelloResponse.Decode HelloResponse.fresh [4, 1, 0]).r = [0]) ∧
      ((ConnectionRequest.Decode ConnectionRequest.fresh [4, 1, 0]).out
          = Outcome.err Error.errVersion ∧
        (ConnectionRequest.Decode ConnectionRequest.fresh [4, 1, 0]).r = [0]) ∧
      ((ConnectionResponse.Decode ConnectionResponse.fresh [4, 1, 0]).out
          = Outcome.err Error.errVersion ∧
        (ConnectionResponse.Decode ConnectionResponse.fresh [4, 1, 0]).r = [0])) :=
  ⟨by decide,
    (Decode_version_mismatch 4 1 [0] (by decide) HelloRequest.fresh HelloResponse.fresh
      ConnectionRequest.fresh ConnectionResponse.fresh).1⟩

/-! ## HelloRequest: the auth count -/

/-- C5: on a stream that begins with version byte 5 and a count byte `c`
followed by at least `c` further bytes, HelloRequest.Decode succeeds exactly
when 1 <= c <= 16; for c = 0 and for c > 16 it returns the auth-count error
and leaves every byte after the count byte unread; on success
AuthMethods[0..c) are the `c` bytes after the count byte, and the stream is
left after them. -/
theorem HelloRequest_Decode_count (m : HelloRequest) (c : Nat) (s : List Nat)
    (hl : m.AuthMethods.length = 16) (hs : c ≤ s.length) :
    ((HelloRequest.Decode m (5 :: c :: s)).out = Outcome.nil ↔ (1 ≤ c ∧ c ≤ 16)) ∧
    ((c = 0 ∨ 16 < c) →
      (HelloRequest.Decode m (5 :: c :: s)).out = Outcome.err Error.tooManyAuth ∧
      (HelloRequest.Decode m (5 :: c :: s)).r = s) ∧
    ((1 ≤ c ∧ c ≤ 16) →
      (HelloRequest.Decode m (5 :: c :: s)).msg.AuthMethods.take c = s.take c ∧
      (HelloRequest.Decode m (5 :: c :: s)).msg.NumberOfAuth = c ∧
      (HelloRequest.Decode m (5 :: c :: s)).r = s.drop c) := by
  by_cases hc : 1 ≤ c ∧ c ≤ 16
  · have hlen : (s.take c).length = c := by simp [hs]
    have hd := HelloRequest_Decode_eq m c (s.take c) (s.drop c) hc.1 hc.2 hlen hl
    rw [List.take_append_drop] at hd
    rw [hd]
    refine ⟨⟨fun _ => hc, fun _ => rfl⟩, fun h => by omega, fun _ => ⟨?_, rfl, rfl⟩⟩
    exact List.take_left' hlen
  · have hc2 : c = 0 ∨ 16 < c := by omega
    rw [HelloRequest_Decode_reject m c s hc2]
    refine ⟨⟨fun h => ?_, fun h => absurd h hc⟩, fun _ => ⟨rfl, rfl⟩, fun h => absurd h hc⟩
    exact Outcome.noConfusion h

theorem HelloRequest_Decode_count_witness :
    (2 ≤ [0, 2, 9].length) ∧
    ((HelloRequest.Decode HelloRequest.fresh [5, 2, 0, 2, 9]).out = Outcome.nil ↔
      (1 ≤ 2 ∧ 2 ≤ 16)) :=
  ⟨by decide, (HelloRequest_Decode_count HelloRequest.fresh 2 [0, 2, 9] rfl (by decide)).1⟩

/-! ## Address types -/

theorem ConnectionRequest_decodePort_out (m : ConnectionRequest) (r buf : List Nat)
    (u : Nat) :
    (ConnectionRequest.decodePort m r buf).out ≠ Outcome.err (Error.unknownAddressType u) := by
  unfold ConnectionRequest.decodePort
  rcases ReadFull_err r buf 2 with h | h | h <;> simp [h]

theorem ConnectionResponse_decodePort_out (m : ConnectionResponse) (r buf : List Nat)
    (u : Nat) :
    (ConnectionResponse.decodePort m r buf).out ≠ Outcome.err (Error.unknownAddressType u) := by
  unfold ConnectionResponse.decodePort
  rcases ReadFull_err r buf 2 with h | h | h <;> simp [h]

theorem ConnectionRequest_decodeAddress_known (m : ConnectionRequest) (r buf : List Nat)
    (u : Nat)
    (ht : m.Address.Typ = IPv4 ∨ m.Address.Typ = Domain ∨ m.Address.Typ = IPv6) :
    (ConnectionRequest.decodeAddress m r buf).out
      ≠ Outcome.err (Error.unknownAddressType u) := by
  unfold ConnectionRequest.decodeAddress
  rcases ht with ht | ht | ht
  · rw [if_pos ht]
    rcases ReadFull_err r buf 4 with h | h | h
    · simp only [h]; exact ConnectionRequest_decodePort_out _ _ _ u
    · simp [h]
    · simp [h]
  · have h4 : ¬ m.Address.Typ = IPv4 := by rw [ht]; decide
    have h6 : ¬ m.Address.Typ = IPv6 := by rw [ht]; decide
    rw [if_neg h4, if_neg h6, if_pos ht]
    rcases ReadFull_err r buf 1 with h | h | h
    · simp only [h]
      split
      · simp
      · split
        · simp
        · rcases ReadFull_err (ReadFull r buf 1).r (ReadFull r buf 1).buf
            ((ReadFull r buf 1).buf.getD 0 0) with h2 | h2 | h2
          · simp only [h2]; exact ConnectionRequest_decodePort_out _ _ _ u
          · simp only [h2]; simp
          · simp only [h2]; simp
    · simp [h]
    · simp [h]
  · have h4 : ¬ m.Address.Typ = IPv4 := by rw [ht]; decide
    rw [if_neg h4, if_pos ht]
    rcases ReadFull_err r buf 16 with h | h | h
    · simp only [h]; exact ConnectionRequest_decodePort_out _ _ _ u
    · simp [h]
    · simp [h]

theorem ConnectionRequest_decodeAddress_unknown (m : ConnectionRequest) (r buf : List Nat)
    (ht : m.Address.Typ ≠ IPv4 ∧ m.Address.Typ ≠ Domain ∧ m.Address.Typ ≠ IPv6) :
    ConnectionRequest.decodeAddress m r buf
      = { msg := m, r := r, out := Outcome.err (Error.unknownAddressType m.Address.Typ) } := by
  unfold ConnectionRequest.decodeAddress
  rw [if_neg ht.1, if_neg ht.2.2, if_neg ht.2.1]

theorem ConnectionResponse_decodeAddress_known (m : ConnectionResponse) (r buf : List Nat)
    (u : Nat) (ht : m.Address.Typ = IPv4 ∨ m.Address.Typ = IPv6) :
    (ConnectionResponse.decodeAddress m r buf).out
      ≠ Outcome.err (Error.unknownAddressType u) := by
  unfold ConnectionResponse.decodeAddress
  rcases ht with ht | ht
  · rw [if_pos ht]
    rcases ReadFull_err r buf 4 with h | h | h
    · simp only [h]; exact ConnectionResponse_decodePort_out _ _ _ u
    · simp [h]
    · simp [h]
  · have h4 : ¬ m.Address.Typ = IPv4 := by rw [ht]; decide
    rw [if_neg h4, if_pos ht]
    rcases ReadFull_err r buf 16 with h | h | h
    · simp only [h]; exact ConnectionResponse_decodePort_out _ _ _ u
    · simp [h]
    · simp [h]

theorem ConnectionResponse_decodeAddress_unknown (m : ConnectionResponse) (r buf : List Nat)
    (ht : m.Address.Typ ≠ IPv4 ∧ m.Address.Typ ≠ IPv6) :
    ConnectionResponse.decodeAddress m r buf
      = { msg := m, r := r, out := Outcome.err (Error.unknownAddressType m.Address.Typ) } := by
  unfold ConnectionResponse.decodeAddress
  rw [if_neg ht.1, if_neg ht.2]

/-- C6: on a stream with an otherwise valid header (version 5, defined command
or status, reserved byte 0) and address-type byte `t`, ConnectionRequest.Decode
returns the unknown-address-type error exactly when `t` is none of 0x01,
0x03, 0x04, and ConnectionResponse.Decode returns it exactly when `t` is
neither 0x01 nor 0x04; so ConnectionResponse.Decode rejects the Domain tag
0x03.  The error is returned right after the type byte, nothing further is
read. -/
theorem Decode_unknown_address_type (mq : ConnectionRequest) (mr : ConnectionResponse)
    (c st t : Nat) (s : List Nat)
    (hc : c = TCPStream ∨ c = TCPBinding ∨ c = UDPBinding) (hst : st ≤ 8) :
    ((t ≠ IPv4 ∧ t ≠ Domain ∧ t ≠ IPv6) →
      (ConnectionRequest.Decode mq (5 :: c :: 0 :: t :: s)).out
          = Outcome.err (Error.unknownAddressType t) ∧
        (ConnectionRequest.Decode mq (5 :: c :: 0 :: t :: s)).r = s) ∧
    ((t = IPv4 ∨ t = Domain ∨ t = IPv6) → ∀ u,
      (ConnectionRequest.Decode mq (5 :: c :: 0 :: t :: s)).out
        ≠ Outcome.err (Error.unknownAddressType u)) ∧
    ((t ≠ IPv4 ∧ t ≠ IPv6) →
      (ConnectionResponse.Decode mr (5 :: st :: 0 :: t :: s)).out
          = Outcome.err (Error.unknownAddressType t) ∧
        (ConnectionResponse.Decode mr (5 :: st :: 0 :: t :: s)).r = s) ∧
    ((t = IPv4 ∨ t = IPv6) → ∀ u,
      (ConnectionResponse.Decode mr (5 :: st :: 0 :: t :: s)).out
        ≠ Outcome.err (Error.unknownAddressType u)) ∧
    (ConnectionResponse.Decode mr (5 :: st :: 0 :: Domain :: s)).out
      = Outcome.err (Error.unknownAddressType Domain) := by
  obtain ⟨b1, -, h1⟩ := ConnectionRequest_Decode_header mq c t s hc
  obtain ⟨b2, -, h2⟩ := ConnectionResponse_Decode_header mr st t s hst
  obtain ⟨b3, -, h3⟩ := ConnectionResponse_Decode_header mr st Domain s hst
  rw [h1, h2, h3]
  refine ⟨fun h => ?_, fun h u => ?_, fun h => ?_, fun h u => ?_, ?_⟩
  · rw [ConnectionRequest_decodeAddress_unknown _ _ _ h]
    exact ⟨rfl, rfl⟩
  · exact ConnectionRequest_decodeAddress_known _ _ _ u h
  · rw [ConnectionResponse_decodeAddress_unknown _ _ _ h]
    exact ⟨rfl, rfl⟩
  · exact ConnectionResponse_decodeAddress_known _ _ _ u h
  · rw [ConnectionResponse_decodeAddress_unknown _ _ _
      ⟨(by decide : Domain ≠ IPv4), (by decide : Domain ≠ IPv6)⟩]

theorem Decode_unknown_address_type_witness :
    (1 = TCPStream ∨ 1 = TCPBinding ∨ 1 = UDPBinding) ∧ (0 ≤ 8) ∧
    ((2 ≠ IPv4 ∧ 2 ≠ Domain ∧ 2 ≠ IPv6) →
      (ConnectionRequest.Decode ConnectionRequest.fresh [5, 1, 0, 2, 7, 7]).out
          = Outcome.err (Error.unknownAddressType 2) ∧
        (ConnectionRequest.Decode ConnectionRequest.fresh [5, 1, 0, 2, 7, 7]).r = [7, 7]) ∧
    (ConnectionResponse.Decode ConnectionResponse.fresh [5, 0, 0, Domain, 7, 7]).out
      = Outcome.err (Error.unknownAddressType Domain) :=
  ⟨Or.inl rfl, by decide,
    (Decode_unknown_address_type ConnectionRequest.fresh ConnectionResponse.fresh
      1 0 2 [7, 7] (Or.inl rfl) (by decide)).1,
    (Decode_unknown_address_type ConnectionRequest.fresh ConnectionResponse.fresh
      1 0 2 [7, 7] (Or.inl rfl) (by decide)).2.2.2.2⟩

/-! ## Domain names -/

/-- C7: on a stream with a valid header and address type Domain (0x03) whose
length byte is the length `n` of the name that follows, with 1 <= n <= 255
and two port bytes after the name, ConnectionRequest.Decode succeeds with
Address.Domain equal to exactly those `n` bytes and Address.Port equal to
256 * (first port byte) + (second port byte), leaving the rest of the stream
unread; when the length byte is 0 it fails with the domain-length error and
reads nothing after the length byte. -/
theorem ConnectionRequest_Decode_domain (m : ConnectionRequest) (c p0 p1 : Nat)
    (name rest s : List Nat)
    (hc : c = TCPStream ∨ c = TCPBinding ∨ c = UDPBinding)
    (h1 : 1 ≤ name.length) (h255 : name.length ≤ 255) (hp0 : p0 < 256) (hp1 : p1 < 256) :
    ConnectionRequest.Decode m
        (5 :: c :: 0 :: Domain :: name.length :: (name ++ p0 :: p1 :: rest))
      = { msg := { Version := 5, Command := c,
                   Address := { Typ := Domain, Domain := name, IP := m.Address.IP,
                                Port := 256 * p0 + p1 } },
          r := rest, out := Outcome.nil } ∧
    ConnectionRequest.Decode m (5 :: c :: 0 :: Domain :: 0 :: s)
      = { msg := { Version := 5, Command := c,
                   Address := { Typ := Domain, Domain := m.Address.Domain,
                                IP := m.Address.IP, Port := m.Address.Port } },
          r := s, out := Outcome.err Error.domainTooLong } := by
  obtain ⟨b1, hb1, e1⟩ := ConnectionRequest_Decode_header m c Domain
    (name.length :: (name ++ p0 :: p1 :: rest)) hc
  obtain ⟨b2, -, e2⟩ := ConnectionRequest_Decode_header m c Domain (0 :: s) hc
  rw [e1, e2, ConnectionRequest_decodeAddress_domain _ name p0 p1 rest b1 rfl h1 h255 hb1,
    ConnectionRequest_decodeAddress_domain_zero _ s b2 rfl, port_of_bytes p0 p1 hp0 hp1]
  exact ⟨rfl, rfl⟩

theorem ConnectionRequest_Decode_domain_witness :
    (1 ≤ [97].length ∧ [97].length ≤ 255 ∧ 1 < 256 ∧ 187 < 256) ∧
    ConnectionRequest.Decode ConnectionRequest.fresh
        (5 :: 1 :: 0 :: Domain :: [97].length :: ([97] ++ 1 :: 187 :: [9]))
      = { msg := { Version := 5, Command := 1,
                   Address := { Typ := Domain, Domain := [97], IP := Addr.zero,
                                Port := 256 * 1 + 187 } },
          r := [9], out := Outcome.nil } :=
  ⟨by decide,
    (ConnectionRequest_Decode_domain ConnectionRequest.fresh 1 1 187 [97] [9] []
      (Or.inl rfl) (by decide) (by decide) (by decide) (by decide)).1⟩

/-- C8, as stated, fails for a Domain of 256 bytes: Encode returns nil and
the accepting buffer holds 263 bytes whose length byte (index 4) is 0. -/
theorem ConnectionRequest_Encode_domain_256 :
    (ConnectionRequest.Encode
        { Version := 5, Command := 1,
          Address := { Typ := Domain, Domain := List.replicate 256 97, IP := Addr.zero,
                       Port := 80 } }
        Writer.buffer).out = Outcome.nil ∧
    (ConnectionRequest.Encode
        { Version := 5, Command := 1,
          Address := { Typ := Domain, Domain := List.replicate 256 97, IP := Addr.zero,
                       Port := 80 } }
        Writer.buffer).w.out
      = [5, 1, 0, 3, 0] ++ List.replicate 256 97 ++ [0, 80] := by
  rw [ConnectionRequest_Encode_domain _ _ rfl,
    if_pos (by simp only [List.length_replicate]; omega), writeBytes_unbounded _ _ rfl]
  simp only [List.length_replicate, Writer.buffer, List.nil_append, Nat.reduceMod,
    Nat.reduceDiv, and_self]

/-- C8 (amended): ConnectionRequest.Encode does not check the length of the
Domain string.  For a Domain of 256 to 505 bytes it hands the writer, in one
Write, the whole message of 7 + len(Domain) bytes whose length byte is
len(Domain) mod 256 (which differs from len(Domain)), and returns what
writeBytes returns (nil on a writer that accepts it); for a Domain of 506
bytes or more it writes nothing and panics on a buffer index out of range
instead of returning an error. -/
theorem ConnectionRequest_Encode_long_domain (m : ConnectionRequest) (w : Writer)
    (ht : m.Address.Typ = Domain) (hl : 255 < m.Address.Domain.length) :
    m.Address.Domain.length % 256 ≠ m.Address.Domain.length ∧
    (m.Address.Domain.length ≤ 505 →
      ConnectionRequest.Encode m w
        = writeBytes w ([m.Version, m.Command, 0, 3, m.Address.Domain.length % 256]
            ++ m.Address.Domain
            ++ [(m.Address.Port / 256) % 256, m.Address.Port % 256]) ∧
      (w.room = none →
        (ConnectionRequest.Encode m w).out = Outcome.nil ∧
        (ConnectionRequest.Encode m w).w.out
          = w.out ++ ([m.Version, m.Command, 0, 3, m.Address.Domain.length % 256]
              ++ m.Address.Domain
              ++ [(m.Address.Port / 256) % 256, m.Address.Port % 256]))) ∧
    (505 < m.Address.Domain.length →
      ConnectionRequest.Encode m w = { w := w, out := Outcome.panic }) := by
  rw [ConnectionRequest_Encode_domain m w ht]
  refine ⟨by omega, ?_, ?_⟩
  · intro h
    rw [if_pos h]
    refine ⟨rfl, fun hw => ?_⟩
    rw [writeBytes_unbounded _ _ hw]
    exact ⟨rfl, rfl⟩
  · intro h
    rw [if_neg (by omega)]

theorem ConnectionRequest_Encode_long_domain_witness :
    (255 < (List.replicate 506 97).length) ∧
    ConnectionRequest.Encode
        { Version := 5, Command := 1,
          Address := { Typ := Domain, Domain := List.replicate 506 97, IP := Addr.zero,
                       Port := 80 } }
        Writer.buffer
      = { w := Writer.buffer, out := Outcome.panic } :=
  ⟨by simp only [List.length_replicate]; omega,
    (ConnectionRequest_Encode_long_domain
      { Version := 5, Command := 1,
        Address := { Typ := Domain, Domain := List.replicate 506 97, IP := Addr.zero,
                     Port := 80 } }
      Writer.buffer rfl (by simp only [List.length_replicate]; omega)).2.2
      (by simp only [List.length_replicate]; omega)⟩

/-! ## HelloRequest: encoding more than 16 auth methods -/

/-- C9, as stated, fails for NumberOfAuth = 17: Encode returns no error, it
panics. -/
theorem HelloRequest_Encode_17 :
    ¬ ∃ e, (HelloRequest.Encode
        { Version := 5, NumberOfAuth := 17, AuthMethods := List.replicate 16 0 }
        Writer.buffer).out = Outcome.err e := by
  rintro ⟨e, he⟩
  have h : (HelloRequest.Encode
      { Version := 5, NumberOfAuth := 17, AuthMethods := List.replicate 16 0 }
      Writer.buffer).out = Outcome.panic := by
    unfold HelloRequest.Encode
    rw [if_pos (by decide)]
  rw [h] at he
  exact Outcome.noConfusion he

/-- C9 (amended): for every HelloRequest whose NumberOfAuth is greater than
16, HelloRequest.Encode writes no bytes to the output and returns no error:
slicing the 16-byte AuthMethods array at NumberOfAuth panics before anything
is written. -/
theorem HelloRequest_Encode_over_16 (m : HelloRequest) (w : Writer)
    (h : 16 < m.NumberOfAuth) :
    HelloRequest.Encode m w = { w := w, out := Outcome.panic } := by
  unfold HelloRequest.Encode
  rw [if_pos h]

theorem HelloRequest_Encode_over_16_witness :
    (16 < 200) ∧
    HelloRequest.Encode
        { Version := 5, NumberOfAuth := 200, AuthMethods := List.replicate 16 0 }
        Writer.buffer
      = { w := Writer.buffer, out := Outcome.panic } :=
  ⟨by decide,
    HelloRequest_Encode_over_16
      { Version := 5, NumberOfAuth := 200, AuthMethods := List.replicate 16 0 }
      Writer.buffer (by decide)⟩

/-! ## The bytes of a ConnectionRequest -/

/-- C10: for every ConnectionRequest with a valid address, Encode hands an
accepting writer exactly the bytes Version, Command, 0x00, the address-type
byte, then the 4 IP bytes (IPv4), the 16 IP bytes (IPv6) or one length byte
equal to len(Domain) followed by the Domain bytes (Domain), then the Port
high byte first; the output is 10, 22 or 7 + len(Domain) bytes long. -/
theorem ConnectionRequest_Encode_wireFormat (m : ConnectionRequest) (w : Writer)
    (hw : w.room = none) (ha : m.Address.valid) :
    ConnectionRequest.Encode m w
      = { w := { w with out := w.out ++ ConnectionRequest.wireFormat m },
          out := Outcome.nil } ∧
    (m.Address.Typ = IPv4 → (ConnectionRequest.wireFormat m).length = 10) ∧
    (m.Address.Typ = IPv6 → (ConnectionRequest.wireFormat m).length = 22) ∧
    (m.Address.Typ = Domain →
      (ConnectionRequest.wireFormat m).length = 7 + m.Address.Domain.length) := by
  obtain ⟨v, c, ⟨t, d, a, p⟩⟩ := m
  obtain ⟨hp, h⟩ := ha
  simp only at hp
  have hdiv : (p / 256) % 256 = p / 256 := by omega
  rcases h with ⟨ht, hd, ip, hip, hl, -⟩ | ⟨ht, hd, ip, hip, hl, -⟩ | ⟨ht, hip, h1, h255, -⟩
  · simp only at ht hd hip
    subst ht hd hip
    rw [ConnectionRequest_Encode_v4 _ _ ip rfl rfl hl, writeBytes_unbounded _ _ hw]
    simp [ConnectionRequest.wireFormat, Addr.ipBytes, IPv4, IPv6, Domain, hdiv, hl]
  · simp only at ht hd hip
    subst ht hd hip
    rw [ConnectionRequest_Encode_v6 _ _ ip [] rfl rfl hl, writeBytes_unbounded _ _ hw]
    simp [ConnectionRequest.wireFormat, Addr.ipBytes, IPv4, IPv6, Domain, hdiv, hl]
  · simp only at ht hip h1 h255
    subst ht hip
    have hmod : d.length % 256 = d.length := by omega
    rw [ConnectionRequest_Encode_domain _ _ rfl, if_pos (by simp only; omega),
      writeBytes_unbounded _ _ hw]
    simp [ConnectionRequest.wireFormat, IPv4, IPv6, Domain, hdiv, hmod]
    omega

theorem ConnectionRequest_Encode_wireFormat_witness :
    ConnectionRequest.Encode
        { Version := 5, Command := 1,
          Address := { Typ := 1, Domain := [], IP := Addr.v4 [127, 0, 0, 1], Port := 8080 } }
        Writer.buffer
      = { w := { out := [5, 1, 0, 1, 127, 0, 0, 1, 31, 144], room := none },
          out := Outcome.nil } :=
  (ConnectionRequest_Encode_wireFormat
    { Version := 5, Command := 1,
      Address := { Typ := 1, Domain := [], IP := Addr.v4 [127, 0, 0, 1], Port := 8080 } }
    Writer.buffer rfl
    ⟨by decide, Or.inl ⟨rfl, rfl, [127, 0, 0, 1], rfl, rfl, by decide⟩⟩).1

/-! ## Client.open -/

theorem Client_open_mux_fails (env : OpenEnv) (conn e : Nat)
    (hd : env.Dial = Res.ok conn) (hm : env.smuxClient conn = Res.fail e) :
    Client.open NewClient env
      = { c := { httpConn := some conn, smuxConn := none },
          trace := [Event.Dial (Res.ok conn), Event.smuxClient conn (Res.fail e),
                    Event.closeConn conn],
          result := OpenResult.err e } := by
  simp [Client.open, Client.create, NewClient, hd, hm]

theorem Client_open_on_half_session (env : OpenEnv) (conn : Nat) :
    Client.open { httpConn := some conn, smuxConn := none } env
      = { c := { httpConn := some conn, smuxConn := none }, trace := [],
          result := OpenResult.panic } := by
  simp [Client.open, Client.create]

/-- C11, as stated, fails under its own condition: with no Session, a dial
that returns transport 1 and a `smux.Client` that fails with error 7, `open`
closes transport 1 and returns the error, but the stored transport is
transport 1, not nil; the next call of `open`, although its dial and its
multiplexer creation would succeed, dials nothing and creates no multiplexer:
it goes on to the nil session and panics. -/
theorem Client_open_mux_failure_keeps_transport :
    Client.open NewClient
        { Dial := Res.ok 1, smuxClient := fun _ => Res.fail 7, Open := fun _ => Res.ok 9 }
      = { c := { httpConn := some 1, smuxConn := none },
          trace := [Event.Dial (Res.ok 1), Event.smuxClient 1 (Res.fail 7),
                    Event.closeConn 1],
          result := OpenResult.err 7 } ∧
    Client.open
        (Client.open NewClient
          { Dial := Res.ok 1, smuxClient := fun _ => Res.fail 7,
            Open := fun _ => Res.ok 9 }).c
        { Dial := Res.ok 2, smuxClient := fun _ => Res.ok 3, Open := fun _ => Res.ok 4 }
      = { c := { httpConn := some 1, smuxConn := none }, trace := [],
          result := OpenResult.panic } := by
  rw [Client_open_mux_fails _ 1 7 rfl rfl]
  exact ⟨rfl, Client_open_on_half_session _ 1⟩

/-- C11 (amended): in `open`, when no Session exists (the stored transport is
nil) and the dial succeeds but `smux.Client` fails, `open` makes exactly the
calls dial, `smux.Client` on the dialed transport and `Close` on that
transport, in this order, returns the error of `smux.Client`, opens no stream
and leaves the stored multiplexer field as it was.  Nothing is said of the
stored transport field or of the next call. -/
theorem Client_open_mux_failure (c : Client) (env : OpenEnv) (conn e : Nat)
    (hn : c.httpConn = none)
    (hd : env.Dial = Res.ok conn) (hm : env.smuxClient conn = Res.fail e) :
    (Client.open c env).result = OpenResult.err e ∧
    (Client.open c env).trace
      = [Event.Dial (Res.ok conn), Event.smuxClient conn (Res.fail e),
         Event.closeConn conn] ∧
    (Client.open c env).c.smuxConn = c.smuxConn := by
  obtain ⟨hc, sc⟩ := c
  simp only at hn
  subst hn
  simp [Client.open, Client.create, hd, hm]

theorem Client_open_mux_failure_witness :
    (Client.open NewClient
        { Dial := Res.ok 1, smuxClient := fun _ => Res.fail 7,
          Open := fun _ => Res.ok 9 }).result = OpenResult.err 7 ∧
    (Client.open NewClient
        { Dial := Res.ok 1, smuxClient := fun _ => Res.fail 7,
          Open := fun _ => Res.ok 9 }).trace
      = [Event.Dial (Res.ok 1), Event.smuxClient 1 (Res.fail 7), Event.closeConn 1] ∧
    (Client.open NewClient
        { Dial := Res.ok 1, smuxClient := fun _ => Res.fail 7,
          Open := fun _ => Res.ok 9 }).c.smuxConn = none :=
  Client_open_mux_failure NewClient
    { Dial := Res.ok 1, smuxClient := fun _ => Res.fail 7, Open := fun _ => Res.ok 9 }
    1 7 rfl rfl rfl

/-- C12: when a Session exists (transport `h` and multiplexer `s` stored) and
opening a stream on `s` fails with error `e`, `open` makes that one `Open`
call, closes the multiplexer and then the transport, sets the stored
transport to nil and returns `e`, without dialling.  The next call of `open`
starts with a dial; when that dial and the multiplexer creation on the new
transport succeed, the new pair is stored and the stream is opened on the new
multiplexer. -/
theorem Client_open_stream_failure (c : Client) (env env2 : OpenEnv) (h s e h2 s2 : Nat)
    (hh : c.httpConn = some h) (hs : c.smuxConn = some s)
    (ho : env.Open s = Res.fail e) :
    Client.open c env
      = { c := { httpConn := none, smuxConn := some s },
          trace := [Event.Open s (Res.fail e), Event.closeSession s, Event.closeConn h],
          result := OpenResult.err e } ∧
    (Client.open (Client.open c env).c env2).trace.head? = some (Event.Dial env2.Dial) ∧
    (env2.Dial = Res.ok h2 → env2.smuxClient h2 = Res.ok s2 →
      (Client.open (Client.open c env).c env2).trace.take 3
        = [Event.Dial (Res.ok h2), Event.smuxClient h2 (Res.ok s2),
           Event.Open s2 (env2.Open s2)] ∧
      ((Client.open (Client.open c env).c env2).result ≠ OpenResult.panic) ∧
      (∀ st, env2.Open s2 = Res.ok st →
        Client.open (Client.open c env).c env2
          = { c := { httpConn := some h2, smuxConn := some s2 },
              trace := [Event.Dial (Res.ok h2), Event.smuxClient h2 (Res.ok s2),
                        Event.Open s2 (Res.ok st)],
              result := OpenResult.conn st })) := by
  obtain ⟨hc, sc⟩ := c
  simp only at hh hs
  subst hh hs
  have h1 : Client.open { httpConn := some h, smuxConn := some s } env
      = { c := { httpConn := none, smuxConn := some s },
          trace := [Event.Open s (Res.fail e), Event.closeSession s, Event.closeConn h],
          result := OpenResult.err e } := by
    simp [Client.open, Client.create, ho]
  rw [h1]
  refine ⟨rfl, ?_, ?_⟩
  · simp only [Client.open, Client.create]
    cases hd : env2.Dial with
    | fail e2 => simp
    | ok c2 =>
      cases hm : env2.smuxClient c2 with
      | fail e3 => simp [hm]
      | ok s3 =>
        cases ho2 : env2.Open s3 <;> simp [hm, ho2]
  · intro hd hm
    simp only [Client.open, Client.create, hd, hm]
    cases ho2 : env2.Open s2 <;> simp

theorem Client_open_stream_failure_witness :
    Client.open { httpConn := some 1, smuxConn := some 2 }
        { Dial := Res.ok 5, smuxClient := fun _ => Res.ok 6, Open := fun _ => Res.fail 7 }
      = { c := { httpConn := none, smuxConn := some 2 },
          trace := [Event.Open 2 (Res.fail 7), Event.closeSession 2, Event.closeConn 1],
          result := OpenResult.err 7 } :=
  (Client_open_stream_failure { httpConn := some 1, smuxConn := some 2 }
    { Dial := Res.ok 5, smuxClient := fun _ => Res.ok 6, Open := fun _ => Res.fail 7 }
    { Dial := Res.ok 5, smuxClient := fun _ => Res.ok 6, Open := fun _ => Res.ok 8 }
    1 2 7 5 6 rfl rfl rfl).1

theorem Client_open_reuse (env : OpenEnv) (h s st : Nat) (ho : env.Open s = Res.ok st) :
    Client.open { httpConn := some h, smuxConn := some s } env
      = { c := { httpConn := some h, smuxConn := some s },
          trace := [Event.Open s (Res.ok st)], result := OpenResult.conn st } := by
  simp [Client.open, Client.create, ho]

theorem Client_open_first (env : OpenEnv) (h s st : Nat)
    (hd : env.Dial = Res.ok h) (hm : env.smuxClient h = Res.ok s)
    (ho : env.Open s = Res.ok st) :
    Client.open NewClient env
      = { c := { httpConn := some h, smuxConn := some s },
          trace := [Event.Dial (Res.ok h), Event.smuxClient h (Res.ok s),
                    Event.Open s (Res.ok st)],
          result := OpenResult.conn st } := by
  simp [Client.open, Client.create, NewClient, hd, hm, ho]

theorem Client_opens_reuse (envs : List OpenEnv) (h s : Nat)
    (ho : ∀ env ∈ envs, ∃ st, env.Open s = Res.ok st) :
    (Client.opens { httpConn := some h, smuxConn := some s } envs).1
        = { httpConn := some h, smuxConn := some s } ∧
      (Client.opens { httpConn := some h, smuxConn := some s } envs).2.1
        = envs.map (fun env => Event.Open s (env.Open s)) ∧
      (Client.opens { httpConn := some h, smuxConn := some s } envs).2.2.length
        = envs.length ∧
      ∀ res ∈ (Client.opens { httpConn := some h, smuxConn := some s } envs).2.2,
        ∃ st, res = OpenResult.conn st := by
  induction envs with
  | nil => simp [Client.opens]
  | cons env envs ih =>
    obtain ⟨st, hst⟩ := ho env (List.mem_cons_self _ _)
    have ih2 := ih (fun e he => ho e (List.mem_cons_of_mem _ he))
    obtain ⟨i1, i2, i3, i4⟩ := ih2
    simp only [Client.opens, Client_open_reuse env h s st hst]
    rw [if_neg (by simp)]
    refine ⟨i1, ?_, ?_, ?_⟩
    · simp [i2, hst]
    · simp [i3]
    · intro res hres
      rcases List.mem_cons.mp hres with hr | hr
      · exact ⟨st, hr⟩
      · exact i4 res hr

/-- C13: for k >= 1 calls of `open` one after the other, starting with no
Session, in which the dial, the multiplexer creation and every stream open
succeed: the calls made are one dial and one multiplexer creation, both in
the first call, followed by one `Open` per call, each on that same stored
multiplexer; all k calls return a stream and the pair stays stored. -/
theorem Client_opens_one_session (env : OpenEnv) (envs : List OpenEnv) (h s : Nat)
    (hd : env.Dial = Res.ok h) (hm : env.smuxClient h = Res.ok s)
    (ho : ∀ e ∈ env :: envs, ∃ st, e.Open s = Res.ok st) :
    (Client.opens NewClient (env :: envs)).1 = { httpConn := some h, smuxConn := some s } ∧
    (Client.opens NewClient (env :: envs)).2.1
      = [Event.Dial (Res.ok h), Event.smuxClient h (Res.ok s)]
        ++ (env :: envs).map (fun e => Event.Open s (e.Open s)) ∧
    ((Client.opens NewClient (env :: envs)).2.1.filter Event.isDial).length = 1 ∧
    ((Client.opens NewClient (env :: envs)).2.1.filter Event.isSmuxClient).length = 1 ∧
    (Client.opens NewClient (env :: envs)).2.2.length = (env :: envs).length ∧
    (∀ res ∈ (Client.opens NewClient (env :: envs)).2.2, ∃ st, res = OpenResult.conn st) := by
  obtain ⟨st, hst⟩ := ho env (List.mem_cons_self _ _)
  obtain ⟨i1, i2, i3, i4⟩ :=
    Client_opens_reuse envs h s (fun e he => ho e (List.mem_cons_of_mem _ he))
  have htr : (Client.opens NewClient (env :: envs)).2.1
      = [Event.Dial (Res.ok h), Event.smuxClient h (Res.ok s)]
        ++ (env :: envs).map (fun e => Event.Open s (e.Open s)) := by
    simp only [Client.opens, Client_open_first env h s st hd hm hst]
    rw [if_neg (by simp)]
    simp [i2, hst]
  have hfd : ∀ l : List OpenEnv,
      (l.map (fun e => Event.Open s (e.Open s))).filter Event.isDial = [] := by
    intro l
    induction l with
    | nil => rfl
    | cons a l ih => simp [Event.isDial, ih]
  have hfm : ∀ l : List OpenEnv,
      (l.map (fun e => Event.Open s (e.Open s))).filter Event.isSmuxClient = [] := by
    intro l
    induction l with
    | nil => rfl
    | cons a l ih => simp [Event.isSmuxClient, ih]
  refine ⟨?_, htr, ?_, ?_, ?_, ?_⟩
  · simp only [Client.opens, Client_open_first env h s st hd hm hst]
    rw [if_neg (by simp)]
    exact i1
  · rw [htr, List.filter_append, hfd]
    simp [Event.isDial]
  · rw [htr, List.filter_append, hfm]
    simp [Event.isSmuxClient]
  · simp only [Client.opens, Client_open_first env h s st hd hm hst]
    rw [if_neg (by simp)]
    simp [i3]
  · simp only [Client.opens, Client_open_first env h s st hd hm hst]
    rw [if_neg (by simp)]
    intro res hres
    rcases List.mem_cons.mp hres with hr | hr
    · exact ⟨st, hr⟩
    · exact i4 res hr

theorem Client_opens_one_session_witness :
    (Client.opens NewClient
        [{ Dial := Res.ok 1, smuxClient := fun _ => Res.ok 2, Open := fun _ => Res.ok 10 },
         { Dial := Res.ok 3, smuxClient := fun _ => Res.ok 4, Open := fun _ => Res.ok 11 },
         { Dial := Res.ok 5, smuxClient := fun _ => Res.ok 6, Open := fun _ => Res.ok 12 }]).2.1
      = [Event.Dial (Res.ok 1), Event.smuxClient 1 (Res.ok 2), Event.Open 2 (Res.ok 10),
         Event.Open 2 (Res.ok 11), Event.Open 2 (Res.ok 12)] :=
  (Client_opens_one_session
    { Dial := Res.ok 1, smuxClient := fun _ => Res.ok 2, Open := fun _ => Res.ok 10 }
    [{ Dial := Res.ok 3, smuxClient := fun _ => Res.ok 4, Open := fun _ => Res.ok 11 },
     { Dial := Res.ok 5, smuxClient := fun _ => Res.ok 6, Open := fun _ => Res.ok 12 }]
    1 2 rfl rfl
    (by
      intro e he
      simp only [List.mem_cons, List.mem_singleton, List.not_mem_nil, or_false] at he
      rcases he with he | he | he <;> subst he
      · exact ⟨10, rfl⟩
      · exact ⟨11, rfl⟩
      · exact ⟨12, rfl⟩)).2.1

/-! ## Server.ServeHTTP -/

theorem Server_acceptLoop_eq (env : ServeEnv) (sess e : Nat) (ss : List Nat) :
    ∀ (i fuel : Nat),
      (∀ j, j < ss.length → env.AcceptStream sess (i + j) = Res.ok (ss.getD j 0)) →
      env.AcceptStream sess (i + ss.length) = Res.fail e →
      ss.length < fuel →
      Server.acceptLoop env sess fuel i
        = some (acceptedThenServed sess ss ++ [Event.AcceptStream sess (Res.fail e)]) := by
  induction ss with
  | nil =>
    intro i fuel _ hf hfuel
    obtain ⟨f, rfl⟩ : ∃ f, fuel = f + 1 := ⟨fuel - 1, by simp at hfuel; omega⟩
    simp only [List.length_nil, Nat.add_zero] at hf
    simp [Server.acceptLoop, hf, acceptedThenServed]
  | cons st ss ih =>
    intro i fuel hok hf hfuel
    obtain ⟨f, rfl⟩ : ∃ f, fuel = f + 1 := ⟨fuel - 1, by simp at hfuel; omega⟩
    have h0 : env.AcceptStream sess i = Res.ok st := by
      have := hok 0 (by simp)
      simpa using this
    have hrec := ih (i + 1) f
      (fun j hj => by
        have := hok (j + 1) (by simp; omega)
        simpa [Nat.add_assoc, Nat.add_comm 1 j] using this)
      (by
        simp only [List.length_cons] at hf
        rw [← hf]; congr 1; omega)
      (by simp at hfuel; omega)
    simp [Server.acceptLoop, h0, hrec, acceptedThenServed]

/-- C18: on a tunnel whose transport accept and multiplexer initialisation
succeeded, when `AcceptStream` returns the streams `ss` and then fails,
`ServeHTTP` (given fuel for its loop) returns after these calls, in this
order: each stream of `ss` accepted and dispatched to the backend once, the
failing `AcceptStream`, then the multiplexer closed, then the transport
closed; nothing is accepted after the failure.  When multiplexer
initialisation fails, no `AcceptStream` is called and the transport is
closed. -/
theorem Server_ServeHTTP_trace (env : ServeEnv) (conn sess e : Nat) (ss : List Nat)
    (fuel : Nat) (ha : env.Accept = Res.ok conn) :
    (env.smuxServer conn = Res.ok sess →
      (∀ j, j < ss.length → env.AcceptStream sess j = Res.ok (ss.getD j 0)) →
      env.AcceptStream sess ss.length = Res.fail e →
      ss.length < fuel →
      Server.ServeHTTP env fuel
        = some ([Event.Accept (Res.ok conn), Event.smuxServer conn (Res.ok sess)]
            ++ acceptedThenServed sess ss
            ++ [Event.AcceptStream sess (Res.fail e), Event.closeSession sess,
                Event.closeConn conn])) ∧
    (env.smuxServer conn = Res.fail e →
      Server.ServeHTTP env fuel
        = some [Event.Accept (Res.ok conn), Event.smuxServer conn (Res.fail e),
                Event.closeConn conn]) := by
  constructor
  · intro hm hok hf hfuel
    have hl := Server_acceptLoop_eq env sess e ss 0 fuel
      (fun j hj => by simpa using hok j hj) (by simpa using hf) hfuel
    simp [Server.ServeHTTP, ha, hm, hl]
  · intro hm
    simp [Server.ServeHTTP, ha, hm]

theorem Server_ServeHTTP_trace_witness :
    Server.ServeHTTP
        { Accept := Res.ok 1, smuxServer := fun _ => Res.ok 2,
          AcceptStream := fun _ i => if i < 2 then Res.ok (10 + i) else Res.fail 7 }
        3
      = some [Event.Accept (Res.ok 1), Event.smuxServer 1 (Res.ok 2),
              Event.AcceptStream 2 (Res.ok 10), Event.ServeConn 10,
              Event.AcceptStream 2 (Res.ok 11), Event.ServeConn 11,
              Event.AcceptStream 2 (Res.fail 7), Event.closeSession 2,
              Event.closeConn 1] :=
  (Server_ServeHTTP_trace
    { Accept := Res.ok 1, smuxServer := fun _ => Res.ok 2,
      AcceptStream := fun _ i => if i < 2 then Res.ok (10 + i) else Res.fail 7 }
    1 2 7 [10, 11] 3 rfl).1 rfl
    (by
      intro j hj
      have hj2 : j < 2 := hj
      interval_cases j <;> rfl)
    rfl (by decide)

/-! ## Decoding: streams that end early, and what success tells -/

theorem ReadFull_err_none_iff (r buf : List Nat) (k : Nat) :
    (ReadFull r buf k).err = none ↔ k ≤ r.length := by
  unfold ReadFull
  split <;> simp [*]

theorem ReadFull_split (r buf : List Nat) (k : Nat) (h : (ReadFull r buf k).err = none) :
    ∃ a rest, r = a ++ rest ∧ a.length = k :=
  ⟨r.take k, r.drop k, (List.take_append_drop k r).symm,
    by simp [(ReadFull_err_none_iff r buf k).mp h]⟩

theorem HelloRequest_Decode_nil_inv (m : HelloRequest) (r : Reader)
    (h : (HelloRequest.Decode m r).out = Outcome.nil) :
    ∃ c a rest, r = 5 :: c :: (a ++ rest) ∧ a.length = c ∧ 1 ≤ c ∧ c ≤ 16 := by
  unfold HelloRequest.Decode at h
  generalize List.replicate 128 0 = buf0 at h
  rcases r with _ | ⟨v, _ | ⟨c, s⟩⟩
  · simp [ReadFull] at h
  · simp [ReadFull] at h
  · simp only [ReadFull_cons2, List.getD_cons_zero, List.getD_cons_succ] at h
    by_cases hv : v = 5
    · subst hv
      by_cases hc : c ≤ 0 ∨ c > 16
      · have hc2 : c = 0 ∨ 16 < c := by omega
        simp [hc2] at h
      · simp only [ne_eq, not_true_eq_false, if_false, if_neg hc] at h
        split at h
        · simp at h
        · rcases hrd : (ReadFull s (5 :: c :: List.drop 2 buf0) c).err with _ | e
          · obtain ⟨a, rest, hs, ha⟩ := ReadFull_split _ _ _ hrd
            exact ⟨c, a, rest, by rw [hs], ha, by omega, by omega⟩
          · simp [hrd] at h
    · simp [hv] at h

theorem HelloResponse_Decode_nil_inv (m : HelloResponse) (r : Reader)
    (h : (HelloResponse.Decode m r).out = Outcome.nil) :
    ∃ c rest, r = 5 :: c :: rest := by
  unfold HelloResponse.Decode at h
  generalize List.replicate 128 0 = buf0 at h
  rcases r with _ | ⟨v, _ | ⟨c, s⟩⟩
  · simp [ReadFull] at h
  · simp [ReadFull] at h
  · simp only [ReadFull_cons2, List.getD_cons_zero] at h
    by_cases hv : v = 5
    · exact ⟨c, s, by rw [hv]⟩
    · simp [hv] at h

theorem ConnectionRequest_decodePort_nil_inv (m : ConnectionRequest) (r buf : List Nat)
    (h : (ConnectionRequest.decodePort m r buf).out = Outcome.nil) :
    ∃ p0 p1 rest, r = p0 :: p1 :: rest := by
  unfold ConnectionRequest.decodePort at h
  rcases r with _ | ⟨p0, _ | ⟨p1, s⟩⟩
  · simp [ReadFull] at h
  · simp [ReadFull] at h
  · exact ⟨p0, p1, s, rfl⟩

theorem ConnectionResponse_decodePort_nil_inv (m : ConnectionResponse) (r buf : List Nat)
    (h : (ConnectionResponse.decodePort m r buf).out = Outcome.nil) :
    ∃ p0 p1 rest, r = p0 :: p1 :: rest := by
  unfold ConnectionResponse.decodePort at h
  rcases r with _ | ⟨p0, _ | ⟨p1, s⟩⟩
  · simp [ReadFull] at h
  · simp [ReadFull] at h
  · exact ⟨p0, p1, s, rfl⟩

theorem ConnectionRequest_decodeAddress_nil_inv (m : ConnectionRequest) (r buf : List Nat)
    (h : (ConnectionRequest.decodeAddress m r buf).out = Outcome.nil) :
    (m.Address.Typ = IPv4 ∧
      ∃ ip p0 p1 rest, r = ip ++ p0 :: p1 :: rest ∧ ip.length = 4) ∨
    (m.Address.Typ = IPv6 ∧
      ∃ ip p0 p1 rest, r = ip ++ p0 :: p1 :: rest ∧ ip.length = 16) ∨
    (m.Address.Typ = Domain ∧
      ∃ name p0 p1 rest, r = name.length :: (name ++ p0 :: p1 :: rest) ∧
        1 ≤ name.length ∧ name.length ≤ 255) := by
  unfold ConnectionRequest.decodeAddress at h
  by_cases h4 : m.Address.Typ = IPv4
  · left
    rw [if_pos h4] at h
    rcases hrd : (ReadFull r buf 4).err with _ | e
    · obtain ⟨ip, rest, hr, hl⟩ := ReadFull_split _ _ _ hrd
      subst hr
      rw [← hl] at h
      simp only [ReadFull_append] at h
      obtain ⟨p0, p1, rest2, hrest⟩ := ConnectionRequest_decodePort_nil_inv _ _ _ h
      exact ⟨h4, ip, p0, p1, rest2, by rw [hrest], hl⟩
    · simp [hrd] at h
  · rw [if_neg h4] at h
    by_cases h6 : m.Address.Typ = IPv6
    · right; left
      rw [if_pos h6] at h
      rcases hrd : (ReadFull r buf 16).err with _ | e
      · obtain ⟨ip, rest, hr, hl⟩ := ReadFull_split _ _ _ hrd
        subst hr
        rw [← hl] at h
        simp only [ReadFull_append] at h
        obtain ⟨p0, p1, rest2, hrest⟩ := ConnectionRequest_decodePort_nil_inv _ _ _ h
        exact ⟨h6, ip, p0, p1, rest2, by rw [hrest], hl⟩
      · simp [hrd] at h
    · rw [if_neg h6] at h
      by_cases hd : m.Address.Typ = Domain
      · right; right
        rw [if_pos hd] at h
        rcases r with _ | ⟨n, s⟩
        · simp [ReadFull] at h
        · simp only [ReadFull_cons1, List.getD_cons_zero] at h
          by_cases hn : n < 1 ∨ n > 255
          · rw [if_pos hn] at h
            simp at h
          · rw [if_neg hn] at h
            split at h
            · simp at h
            · rcases hrd : (ReadFull s (n :: List.drop 1 buf) n).err with _ | e
              · obtain ⟨name, rest, hr, hl⟩ := ReadFull_split _ _ _ hrd
                subst hr
                subst hl
                simp only [ReadFull_append] at h
                obtain ⟨p0, p1, rest2, hrest⟩ :=
                  ConnectionRequest_decodePort_nil_inv _ _ _ h
                exact ⟨hd, name, p0, p1, rest2, by rw [hrest], by omega, by omega⟩
              · rw [hrd] at h
                simp at h
      · rw [if_neg hd] at h
        simp at h

theorem ConnectionResponse_decodeAddress_nil_inv (m : ConnectionResponse) (r buf : List Nat)
    (h : (ConnectionResponse.decodeAddress m r buf).out = Outcome.nil) :
    (m.Address.Typ = IPv4 ∧
      ∃ ip p0 p1 rest, r = ip ++ p0 :: p1 :: rest ∧ ip.length = 4) ∨
    (m.Address.Typ = IPv6 ∧
      ∃ ip p0 p1 rest, r = ip ++ p0 :: p1 :: rest ∧ ip.length = 16) := by
  unfold ConnectionResponse.decodeAddress at h
  by_cases h4 : m.Address.Typ = IPv4
  · left
    rw [if_pos h4] at h
    rcases hrd : (ReadFull r buf 4).err with _ | e
    · obtain ⟨ip, rest, hr, hl⟩ := ReadFull_split _ _ _ hrd
      subst hr
      rw [← hl] at h
      simp only [ReadFull_append] at h
      obtain ⟨p0, p1, rest2, hrest⟩ := ConnectionResponse_decodePort_nil_inv _ _ _ h
      exact ⟨h4, ip, p0, p1, rest2, by rw [hrest], hl⟩
    · simp [hrd] at h
  · rw [if_neg h4] at h
    by_cases h6 : m.Address.Typ = IPv6
    · right
      rw [if_pos h6] at h
      rcases hrd : (ReadFull r buf 16).err with _ | e
      · obtain ⟨ip, rest, hr, hl⟩ := ReadFull_split _ _ _ hrd
        subst hr
        rw [← hl] at h
        simp only [ReadFull_append] at h
        obtain ⟨p0, p1, rest2, hrest⟩ := ConnectionResponse_decodePort_nil_inv _ _ _ h
        exact ⟨h6, ip, p0, p1, rest2, by rw [hrest], hl⟩
      · simp [hrd] at h
    · rw [if_neg h6] at h
      simp at h

/-! ## The header of ConnectionRequest and ConnectionResponse -/

theorem ConnectionRequest_Decode_command (m : ConnectionRequest) (c : Nat) (s : List Nat)
    (hc : ¬ (c = 1 ∨ c = 2 ∨ c = 3)) :
    ConnectionRequest.Decode m (5 :: c :: s)
      = { msg := { m with Version := 5, Command := c }, r := s,
          out := Outcome.err Error.unknownCommand } := by
  have hk : Command.String c = "UnknownCommand" := (Command_String_unknown_iff c).mpr hc
  unfold ConnectionRequest.Decode
  simp only [ReadFull_cons2, List.getD_cons_zero, List.getD_cons_succ, ne_eq,
    not_true_eq_false, if_false, hk, if_true]

theorem ConnectionRequest_Decode_reserved (m : ConnectionRequest) (c rsv : Nat)
    (s : List Nat) (hc : c = 1 ∨ c = 2 ∨ c = 3) (hr : rsv ≠ 0) :
    ConnectionRequest.Decode m (5 :: c :: rsv :: s)
      = { msg := { m with Version := 5, Command := c }, r := s,
          out := Outcome.err Error.errorReserved } := by
  have hk : ¬ Command.String c = "UnknownCommand" := by
    rw [Command_String_unknown_iff]; exact not_not.mpr hc
  unfold ConnectionRequest.Decode
  simp only [ReadFull_cons2, ReadFull_cons1, List.getD_cons_zero, List.getD_cons_succ,
    ne_eq, not_true_eq_false, if_false, hk, hr, not_false_eq_true, if_true]

theorem ConnectionResponse_Decode_status_unknown (m : ConnectionResponse) (c : Nat)
    (s : List Nat) (hc : 8 < c) :
    ConnectionResponse.Decode m (5 :: c :: s)
      = { msg := { m with Version := 5, Status := c }, r := s,
          out := Outcome.err Error.unknownStatus } := by
  have hk : Status.String c = "UnknownStatus" := (Status_String_unknown_iff c).mpr hc
  unfold ConnectionResponse.Decode
  simp only [ReadFull_cons2, List.getD_cons_zero, List.getD_cons_succ, ne_eq,
    not_true_eq_false, if_false, hk, if_true]

theorem ConnectionResponse_Decode_reserved (m : ConnectionResponse) (c rsv : Nat)
    (s : List Nat) (hc : c ≤ 8) (hr : rsv ≠ 0) :
    ConnectionResponse.Decode m (5 :: c :: rsv :: s)
      = { msg := { m with Version := 5, Status := c }, r := s,
          out := Outcome.err Error.errorReserved } := by
  have hk : ¬ Status.String c = "UnknownStatus" := by
    rw [Status_String_unknown_iff]; omega
  unfold ConnectionResponse.Decode
  simp only [ReadFull_cons2, ReadFull_cons1, List.getD_cons_zero, List.getD_cons_succ,
    ne_eq, not_true_eq_false, if_false, hk, hr, not_false_eq_true, if_true]

theorem ConnectionRequest_Decode_cases (m : ConnectionRequest) (r : Reader) :
    (∃ e, (ConnectionRequest.Decode m r).out = Outcome.err e) ∨
    (∃ c t s buf, r = 5 :: c :: 0 :: t :: s ∧ (c = 1 ∨ c = 2 ∨ c = 3) ∧ buf.length = 256 ∧
      ConnectionRequest.Decode m r
        = ConnectionRequest.decodeAddress
            { Version := 5, Command := c, Address := { m.Address with Typ := t } } s buf) := by
  rcases r with _ | ⟨v, _ | ⟨c, tl⟩⟩
  · left
    unfold ConnectionRequest.Decode
    generalize List.replicate 256 0 = buf0
    simp [ReadFull]
  · left
    rw [ConnectionRequest_Decode_single]
    exact ⟨_, rfl⟩
  · by_cases hv : v = 5
    · subst hv
      by_cases hc : c = 1 ∨ c = 2 ∨ c = 3
      · rcases tl with _ | ⟨rsv, _ | ⟨t, s⟩⟩
        · left
          have hk : ¬ Command.String c = "UnknownCommand" := by
            rw [Command_String_unknown_iff]; exact not_not.mpr hc
          unfold ConnectionRequest.Decode
          generalize List.replicate 256 0 = buf0
          simp [ReadFull, hk]
        · left
          have hk : ¬ Command.String c = "UnknownCommand" := by
            rw [Command_String_unknown_iff]; exact not_not.mpr hc
          unfold ConnectionRequest.Decode
          generalize List.replicate 256 0 = buf0
          by_cases hr : rsv = 0
          · simp [ReadFull, hk, hr]
          · simp [ReadFull, hk, hr]
        · by_cases hr : rsv = 0
          · subst hr
            right
            obtain ⟨buf, hb, hdec⟩ := ConnectionRequest_Decode_header m c t s hc
            exact ⟨c, t, s, buf, rfl, hc, hb, hdec⟩
          · left
            rw [ConnectionRequest_Decode_reserved m c rsv _ hc hr]
            exact ⟨_, rfl⟩
      · left
        rw [ConnectionRequest_Decode_command m c _ hc]
        exact ⟨_, rfl⟩
    · left
      rw [ConnectionRequest_Decode_version m v c _ hv]
      exact ⟨_, rfl⟩

theorem ConnectionResponse_Decode_cases (m : ConnectionResponse) (r : Reader) :
    (∃ e, (ConnectionResponse.Decode m r).out = Outcome.err e) ∨
    (∃ c t s buf, r = 5 :: c :: 0 :: t :: s ∧ c ≤ 8 ∧ buf.length = 256 ∧
      ConnectionResponse.Decode m r
        = ConnectionResponse.decodeAddress
            { Version := 5, Status := c, Address := { m.Address with Typ := t } } s buf) := by
  rcases r with _ | ⟨v, _ | ⟨c, tl⟩⟩
  · left
    unfold ConnectionResponse.Decode
    generalize List.replicate 256 0 = buf0
    simp [ReadFull]
  · left
    rw [ConnectionResponse_Decode_single]
    exact ⟨_, rfl⟩
  · by_cases hv : v = 5
    · subst hv
      by_cases hc : c ≤ 8
      · rcases tl with _ | ⟨rsv, _ | ⟨t, s⟩⟩
        · left
          have hk : ¬ Status.String c = "UnknownStatus" := by
            rw [Status_String_unknown_iff]; omega
          unfold ConnectionResponse.Decode
          generalize List.replicate 256 0 = buf0
          simp [ReadFull, hk]
        · left
          have hk : ¬ Status.String c = "UnknownStatus" := by
            rw [Status_String_unknown_iff]; omega
          unfold ConnectionResponse.Decode
          generalize List.replicate 256 0 = buf0
          by_cases hr : rsv = 0
          · simp [ReadFull, hk, hr]
          · simp [ReadFull, hk, hr]
        · by_cases hr : rsv = 0
          · subst hr
            right
            obtain ⟨buf, hb, hdec⟩ := ConnectionResponse_Decode_header m c t s hc
            exact ⟨c, t, s, buf, rfl, hc, hb, hdec⟩
          · left
            rw [ConnectionResponse_Decode_reserved m c rsv _ hc hr]
            exact ⟨_, rfl⟩
      · left
        rw [ConnectionResponse_Decode_status_unknown m c _ (by omega)]
        exact ⟨_, rfl⟩
    · left
      rw [ConnectionResponse_Decode_version m v c _ hv]
      exact ⟨_, rfl⟩

/-! ## Outcomes of the address and port stages -/

theorem ConnectionRequest_decodePort_cases (m : ConnectionRequest) (r buf : List Nat) :
    (ConnectionRequest.decodePort m r buf).out = Outcome.nil ∨
    (ConnectionRequest.decodePort m r buf).out = Outcome.err Error.EOF ∨
    (ConnectionRequest.decodePort m r buf).out = Outcome.err Error.ErrUnexpectedEOF := by
  unfold ConnectionRequest.decodePort
  rcases ReadFull_err r buf 2 with h | h | h <;> simp [h]

theorem ConnectionResponse_decodePort_cases (m : ConnectionResponse) (r buf : List Nat) :
    (ConnectionResponse.decodePort m r buf).out = Outcome.nil ∨
    (ConnectionResponse.decodePort m r buf).out = Outcome.err Error.EOF ∨
    (ConnectionResponse.decodePort m r buf).out = Outcome.err Error.ErrUnexpectedEOF := by
  unfold ConnectionResponse.decodePort
  rcases ReadFull_err r buf 2 with h | h | h <;> simp [h]

theorem ConnectionRequest_decodeAddress_cases (m : ConnectionRequest) (r buf : List Nat)
    (hb : buf.length = 256)
    (ht : m.Address.Typ = IPv4 ∨ m.Address.Typ = Domain ∨ m.Address.Typ = IPv6) :
    (ConnectionRequest.decodeAddress m r buf).out = Outcome.nil ∨
    (ConnectionRequest.decodeAddress m r buf).out = Outcome.err Error.EOF ∨
    (ConnectionRequest.decodeAddress m r buf).out = Outcome.err Error.ErrUnexpectedEOF ∨
    (ConnectionRequest.decodeAddress m r buf).out = Outcome.err Error.domainTooLong := by
  have port : ∀ (m2 : ConnectionRequest) (r2 b2 : List Nat),
      (ConnectionRequest.decodePort m2 r2 b2).out = Outcome.nil ∨
      (ConnectionRequest.decodePort m2 r2 b2).out = Outcome.err Error.EOF ∨
      (ConnectionRequest.decodePort m2 r2 b2).out = Outcome.err Error.ErrUnexpectedEOF ∨
      (ConnectionRequest.decodePort m2 r2 b2).out = Outcome.err Error.domainTooLong := by
    intro m2 r2 b2
    rcases ConnectionRequest_decodePort_cases m2 r2 b2 with h | h | h
    · exact Or.inl h
    · exact Or.inr (Or.inl h)
    · exact Or.inr (Or.inr (Or.inl h))
  unfold ConnectionRequest.decodeAddress
  rcases ht with ht | ht | ht
  · rw [if_pos ht]
    rcases ReadFull_err r buf 4 with h | h | h
    · simp only [h]; exact port _ _ _
    · simp [h]
    · simp [h]
  · have h4 : ¬ m.Address.Typ = IPv4 := by rw [ht]; decide
    have h6 : ¬ m.Address.Typ = IPv6 := by rw [ht]; decide
    rw [if_neg h4, if_neg h6, if_pos ht]
    have hlen : (ReadFull r buf 1).buf.length = 256 := by
      rw [ReadFull_length r buf 1 (by omega), hb]
    rcases ReadFull_err r buf 1 with h | h | h
    · simp only [h]
      split
      · simp
      · split
        · omega
        · rcases ReadFull_err (ReadFull r buf 1).r (ReadFull r buf 1).buf
            ((ReadFull r buf 1).buf.getD 0 0) with h2 | h2 | h2
          · simp only [h2]; exact port _ _ _
          · simp only [h2]; simp
          · simp only [h2]; simp
    · simp [h]
    · simp [h]
  · have h4 : ¬ m.Address.Typ = IPv4 := by rw [ht]; decide
    rw [if_neg h4, if_pos ht]
    rcases ReadFull_err r buf 16 with h | h | h
    · simp only [h]; exact port _ _ _
    · simp [h]
    · simp [h]

theorem ConnectionResponse_decodeAddress_cases (m : ConnectionResponse) (r buf : List Nat)
    (ht : m.Address.Typ = IPv4 ∨ m.Address.Typ = IPv6) :
    (ConnectionResponse.decodeAddress m r buf).out = Outcome.nil ∨
    (ConnectionResponse.decodeAddress m r buf).out = Outcome.err Error.EOF ∨
    (ConnectionResponse.decodeAddress m r buf).out = Outcome.err Error.ErrUnexpectedEOF := by
  unfold ConnectionResponse.decodeAddress
  rcases ht with ht | ht
  · rw [if_pos ht]
    rcases ReadFull_err r buf 4 with h | h | h
    · simp only [h]; exact ConnectionResponse_decodePort_cases _ _ _
    · simp [h]
    · simp [h]
  · have h4 : ¬ m.Address.Typ = IPv4 := by rw [ht]; decide
    rw [if_neg h4, if_pos ht]
    rcases ReadFull_err r buf 16 with h | h | h
    · simp only [h]; exact ConnectionResponse_decodePort_cases _ _ _
    · simp [h]
    · simp [h]

theorem ConnectionRequest_decodePort_header (m : ConnectionRequest) (r buf : List Nat) :
    (ConnectionRequest.decodePort m r buf).msg.Version = m.Version ∧
    (ConnectionRequest.decodePort m r buf).msg.Command = m.Command ∧
    (ConnectionRequest.decodePort m r buf).msg.Address.Typ = m.Address.Typ := by
  unfold ConnectionRequest.decodePort
  rcases ReadFull_err r buf 2 with h | h | h <;> simp [h]

theorem ConnectionResponse_decodePort_header (m : ConnectionResponse) (r buf : List Nat) :
    (ConnectionResponse.decodePort m r buf).msg.Version = m.Version ∧
    (ConnectionResponse.decodePort m r buf).msg.Status = m.Status ∧
    (ConnectionResponse.decodePort m r buf).msg.Address.Typ = m.Address.Typ := by
  unfold ConnectionResponse.decodePort
  rcases ReadFull_err r buf 2 with h | h | h <;> simp [h]

theorem ConnectionRequest_decodeAddress_header (m : ConnectionRequest) (r buf : List Nat) :
    (ConnectionRequest.decodeAddress m r buf).msg.Version = m.Version ∧
    (ConnectionRequest.decodeAddress m r buf).msg.Command = m.Command ∧
    (ConnectionRequest.decodeAddress m r buf).msg.Address.Typ = m.Address.Typ := by
  unfold ConnectionRequest.decodeAddress
  by_cases h4 : m.Address.Typ = IPv4
  · rw [if_pos h4]
    rcases ReadFull_err r buf 4 with h | h | h
    · simp only [h]; exact ConnectionRequest_decodePort_header _ _ _
    · simp [h]
    · simp [h]
  · rw [if_neg h4]
    by_cases h6 : m.Address.Typ = IPv6
    · rw [if_pos h6]
      rcases ReadFull_err r buf 16 with h | h | h
      · simp only [h]; exact ConnectionRequest_decodePort_header _ _ _
      · simp [h]
      · simp [h]
    · rw [if_neg h6]
      by_cases hd : m.Address.Typ = Domain
      · rw [if_pos hd]
        rcases ReadFull_err r buf 1 with h | h | h
        · simp only [h]
          split
          · exact ⟨rfl, rfl, rfl⟩
          · split
            · exact ⟨rfl, rfl, rfl⟩
            · rcases ReadFull_err (ReadFull r buf 1).r (ReadFull r buf 1).buf
                ((ReadFull r buf 1).buf.getD 0 0) with h2 | h2 | h2
              · simp only [h2]; exact ConnectionRequest_decodePort_header _ _ _
              · simp only [h2]; simp
              · simp only [h2]; simp
        · simp [h]
        · simp [h]
      · rw [if_neg hd]
        exact ⟨rfl, rfl, rfl⟩

theorem ConnectionResponse_decodeAddress_header (m : ConnectionResponse) (r buf : List Nat) :
    (ConnectionResponse.decodeAddress m r buf).msg.Version = m.Version ∧
    (ConnectionResponse.decodeAddress m r buf).msg.Status = m.Status ∧
    (ConnectionResponse.decodeAddress m r buf).msg.Address.Typ = m.Address.Typ := by
  unfold ConnectionResponse.decodeAddress
  by_cases h4 : m.Address.Typ = IPv4
  · rw [if_pos h4]
    rcases ReadFull_err r buf 4 with h | h | h
    · simp only [h]; exact ConnectionResponse_decodePort_header _ _ _
    · simp [h]
    · simp [h]
  · rw [if_neg h4]
    by_cases h6 : m.Address.Typ = IPv6
    · rw [if_pos h6]
      rcases ReadFull_err r buf 16 with h | h | h
      · simp only [h]; exact ConnectionResponse_decodePort_header _ _ _
      · simp [h]
      · simp [h]
    · rw [if_neg h6]
      exact ⟨rfl, rfl, rfl⟩

/-! ## Order of the header checks -/

/-- C15: ConnectionRequest.Decode checks version, command, reserved byte and
address type in this order and stops at the first that is invalid: on every
stream of at least four bytes `v, c, rsv, t` the error is errVersion when
v != 5; else "unknown command" when c is none of 0x01, 0x02, 0x03; else
"error reserved" when rsv != 0; else "unknown address type" when t is none of
0x01, 0x03, 0x04.  When all four are valid none of these errors is returned
and Command holds `c`, which is TCPStream, TCPBinding or UDPBinding for 0x01,
0x02, 0x03. -/
theorem ConnectionRequest_Decode_header_order (m : ConnectionRequest) (v c rsv t : Nat)
    (s : List Nat) :
    (v ≠ 5 →
      (ConnectionRequest.Decode m (v :: c :: rsv :: t :: s)).out
        = Outcome.err Error.errVersion) ∧
    (v = 5 → ¬ (c = 1 ∨ c = 2 ∨ c = 3) →
      (ConnectionRequest.Decode m (v :: c :: rsv :: t :: s)).out
        = Outcome.err Error.unknownCommand) ∧
    (v = 5 → (c = 1 ∨ c = 2 ∨ c = 3) → rsv ≠ 0 →
      (ConnectionRequest.Decode m (v :: c :: rsv :: t :: s)).out
        = Outcome.err Error.errorReserved) ∧
    (v = 5 → (c = 1 ∨ c = 2 ∨ c = 3) → rsv = 0 → ¬ (t = 1 ∨ t = 3 ∨ t = 4) →
      (ConnectionRequest.Decode m (v :: c :: rsv :: t :: s)).out
        = Outcome.err (Error.unknownAddressType t)) ∧
    (v = 5 → (c = 1 ∨ c = 2 ∨ c = 3) → rsv = 0 → (t = 1 ∨ t = 3 ∨ t = 4) →
      (ConnectionRequest.Decode m (v :: c :: rsv :: t :: s)).msg.Command = c ∧
      ((ConnectionRequest.Decode m (v :: c :: rsv :: t :: s)).out = Outcome.nil ∨
        (ConnectionRequest.Decode m (v :: c :: rsv :: t :: s)).out
          = Outcome.err Error.EOF ∨
        (ConnectionRequest.Decode m (v :: c :: rsv :: t :: s)).out
          = Outcome.err Error.ErrUnexpectedEOF ∨
        (ConnectionRequest.Decode m (v :: c :: rsv :: t :: s)).out
          = Outcome.err Error.domainTooLong)) ∧
    (TCPStream = 1 ∧ TCPBinding = 2 ∧ UDPBinding = 3 ∧
      Command.String 1 = "TCPStream" ∧ Command.String 2 = "TCPBinding" ∧
      Command.String 3 = "UDPBinding") := by
  refine ⟨fun hv => ?_, fun hv hc => ?_, fun hv hc hr => ?_, fun hv hc hr ht => ?_,
    fun hv hc hr ht => ?_, ⟨rfl, rfl, rfl, by decide, by decide, by decide⟩⟩
  · rw [ConnectionRequest_Decode_version m v c _ hv]
  · subst hv
    rw [ConnectionRequest_Decode_command m c _ hc]
  · subst hv
    rw [ConnectionRequest_Decode_reserved m c rsv _ hc hr]
  · subst hv hr
    obtain ⟨buf, -, hdec⟩ := ConnectionRequest_Decode_header m c t s hc
    rw [hdec, ConnectionRequest_decodeAddress_unknown _ _ _
      ⟨fun h => ht (Or.inl h), fun h => ht (Or.inr (Or.inl h)),
        fun h => ht (Or.inr (Or.inr h))⟩]
  · subst hv hr
    obtain ⟨buf, hb, hdec⟩ := ConnectionRequest_Decode_header m c t s hc
    rw [hdec]
    refine ⟨(ConnectionRequest_decodeAddress_header _ _ _).2.1, ?_⟩
    apply ConnectionRequest_decodeAddress_cases _ _ _ hb
    rcases ht with ht | ht | ht
    · exact Or.inl ht
    · exact Or.inr (Or.inl ht)
    · exact Or.inr (Or.inr ht)

theorem ConnectionRequest_Decode_header_order_witness :
    (5 = 5 ∧ (1 = 1 ∨ 1 = 2 ∨ 1 = 3) ∧ 9 ≠ 0) ∧
    (ConnectionRequest.Decode ConnectionRequest.fresh [5, 1, 9, 2, 0]).out
      = Outcome.err Error.errorReserved :=
  ⟨by decide,
    (ConnectionRequest_Decode_header_order ConnectionRequest.fresh 5 1 9 2 [0]).2.2.1
      rfl (Or.inl rfl) (by decide)⟩

/-! ## The status byte -/

theorem ConnectionResponse_Decode_status_ok (m : ConnectionResponse) (b : Nat)
    (s : List Nat) (hb : b ≤ 8) :
    (ConnectionResponse.Decode m (5 :: b :: s)).out ≠ Outcome.err Error.unknownStatus ∧
    (ConnectionResponse.Decode m (5 :: b :: s)).msg.Status = b := by
  have hk : ¬ Status.String b = "UnknownStatus" := by
    rw [Status_String_unknown_iff]; omega
  rcases s with _ | ⟨rsv, _ | ⟨t, s⟩⟩
  · unfold ConnectionResponse.Decode
    generalize List.replicate 256 0 = buf0
    simp [ReadFull, hk]
  · unfold ConnectionResponse.Decode
    generalize List.replicate 256 0 = buf0
    by_cases hr : rsv = 0
    · simp [ReadFull, hk, hr]
    · simp [ReadFull, hk, hr]
  · by_cases hr : rsv = 0
    · subst hr
      obtain ⟨buf, -, hdec⟩ := ConnectionResponse_Decode_header m b t s hb
      rw [hdec]
      refine ⟨?_, (ConnectionResponse_decodeAddress_header _ _ _).2.1⟩
      by_cases ht : t = IPv4 ∨ t = IPv6
      · rcases ConnectionResponse_decodeAddress_cases
            { Version := 5, Status := b, Address := { m.Address with Typ := t } }
            s buf ht with h | h | h <;>
          rw [h] <;> simp
      · rw [ConnectionResponse_decodeAddress_unknown _ _ _
          ⟨fun h => ht (Or.inl h), fun h => ht (Or.inr h)⟩]
        simp
    · rw [ConnectionResponse_Decode_reserved m b rsv _ hb hr]
      simp

/-- C16: on every stream that begins with version byte 5 followed by a second
byte `b`, ConnectionResponse.Decode fails with the unknown-status error
exactly when `b` is none of the nine status codes 0x00 to 0x08; for each of
the nine codes the status check passes and Status is set to `b`. -/
theorem ConnectionResponse_Decode_status (m : ConnectionResponse) (b : Nat) (s : List Nat) :
    ((ConnectionResponse.Decode m (5 :: b :: s)).out = Outcome.err Error.unknownStatus
      ↔ 8 < b) ∧
    (b ≤ 8 →
      (ConnectionResponse.Decode m (5 :: b :: s)).out ≠ Outcome.err Error.unknownStatus ∧
      (ConnectionResponse.Decode m (5 :: b :: s)).msg.Status = b) := by
  refine ⟨⟨fun h => ?_, fun h => ?_⟩, fun hb => ConnectionResponse_Decode_status_ok m b s hb⟩
  · by_contra hb
    exact (ConnectionResponse_Decode_status_ok m b s (by omega)).1 h
  · rw [ConnectionResponse_Decode_status_unknown m b s h]

theorem ConnectionResponse_Decode_status_witness :
    (8 ≤ 8) ∧
    (ConnectionResponse.Decode ConnectionResponse.fresh [5, 8, 0, 1, 10, 0, 0, 1, 0, 80]).out
        ≠ Outcome.err Error.unknownStatus ∧
      (ConnectionResponse.Decode ConnectionResponse.fresh
        [5, 8, 0, 1, 10, 0, 0, 1, 0, 80]).msg.Status = 8 :=
  ⟨by decide,
    (ConnectionResponse_Decode_status ConnectionResponse.fresh 8
      [0, 1, 10, 0, 0, 1, 0, 80]).2 (by decide)⟩

/-! ## Decoding never panics -/

theorem HelloRequest_Decode_safe (m : HelloRequest) (r : Reader) :
    (HelloRequest.Decode m r).out ≠ Outcome.panic ∧
    ((HelloRequest.Decode m r).out = Outcome.nil →
      1 ≤ (HelloRequest.Decode m r).msg.NumberOfAuth ∧
      (HelloRequest.Decode m r).msg.NumberOfAuth ≤ 16) := by
  have hl : (List.replicate 128 0).length = 128 := List.length_replicate _ _
  unfold HelloRequest.Decode
  generalize List.replicate 128 0 = buf0 at hl
  rcases r with _ | ⟨v, _ | ⟨c, s⟩⟩
  · simp [ReadFull]
  · simp [ReadFull]
  · simp only [ReadFull_cons2, List.getD_cons_zero, List.getD_cons_succ]
    by_cases hv : v = 5
    · subst hv
      by_cases hc : c ≤ 0 ∨ c > 16
      · simp only [ne_eq, not_true_eq_false, if_false, if_pos hc]
        simp
      · have hp : ¬ (c > (5 :: c :: List.drop 2 buf0).length) := by
          simp only [List.length_cons, List.length_drop, hl]
          omega
        simp only [ne_eq, not_true_eq_false, if_false, if_neg hc, if_neg hp]
        rcases hrd : (ReadFull s (5 :: c :: List.drop 2 buf0) c).err with _ | e
        · simp only []
          exact ⟨by simp, fun _ => by omega⟩
        · simp
    · simp [hv]

theorem HelloResponse_Decode_safe (m : HelloResponse) (r : Reader) :
    (HelloResponse.Decode m r).out ≠ Outcome.panic := by
  unfold HelloResponse.Decode
  generalize List.replicate 128 0 = buf0
  rcases ReadFull_err r buf0 2 with h | h | h
  · simp only [h]
    split <;> simp
  · simp [h]
  · simp [h]

theorem ConnectionRequest_Decode_safe (m : ConnectionRequest) (r : Reader) :
    (ConnectionRequest.Decode m r).out ≠ Outcome.panic ∧
    ((ConnectionRequest.Decode m r).out = Outcome.nil →
      (ConnectionRequest.Decode m r).msg.Address.Typ = Domain →
      1 ≤ (ConnectionRequest.Decode m r).msg.Address.Domain.length ∧
      (ConnectionRequest.Decode m r).msg.Address.Domain.length ≤ 255) := by
  rcases ConnectionRequest_Decode_cases m r with ⟨e, he⟩ | ⟨c, t, s, buf, -, -, hb, hdec⟩
  · rw [he]
    exact ⟨by simp, fun h => by simp at h⟩
  · rw [hdec]
    constructor
    · by_cases ht : t = IPv4 ∨ t = Domain ∨ t = IPv6
      · rcases ConnectionRequest_decodeAddress_cases
            { Version := 5, Command := c, Address := { m.Address with Typ := t } }
            s buf hb ht with h | h | h | h <;> rw [h] <;> simp
      · rw [ConnectionRequest_decodeAddress_unknown _ _ _
          ⟨fun h => ht (Or.inl h), fun h => ht (Or.inr (Or.inl h)),
            fun h => ht (Or.inr (Or.inr h))⟩]
        simp
    · intro hnil hdom
      rw [(ConnectionRequest_decodeAddress_header _ _ _).2.2] at hdom
      rcases ConnectionRequest_decodeAddress_nil_inv _ _ _ hnil with
        ⟨h4, -⟩ | ⟨h6, -⟩ | ⟨-, name, p0, p1, rest, hs, h1, h255⟩
      · rw [hdom] at h4; exact absurd h4 (by decide)
      · rw [hdom] at h6; exact absurd h6 (by decide)
      · subst hs
        rw [ConnectionRequest_decodeAddress_domain _ name p0 p1 rest buf hdom h1 h255 hb]
        exact ⟨h1, h255⟩

theorem ConnectionResponse_Decode_safe (m : ConnectionResponse) (r : Reader) :
    (ConnectionResponse.Decode m r).out ≠ Outcome.panic := by
  rcases ConnectionResponse_Decode_cases m r with ⟨e, he⟩ | ⟨c, t, s, buf, -, -, hb, hdec⟩
  · rw [he]
    simp
  · rw [hdec]
    by_cases ht : t = IPv4 ∨ t = IPv6
    · rcases ConnectionResponse_decodeAddress_cases
          { Version := 5, Status := c, Address := { m.Address with Typ := t } }
          s buf ht with h | h | h <;> rw [h] <;> simp
    · rw [ConnectionResponse_decodeAddress_unknown _ _ _
        ⟨fun h => ht (Or.inl h), fun h => ht (Or.inr h)⟩]
      simp

/-- C17: for every input stream, of any length and content, each of the four
Decode methods returns nil or an error and never panics.  The two reads whose
length comes from the stream stay inside their buffers: a HelloRequest that
decodes has between 1 and 16 auth methods (read into a 128-byte buffer), and
a decoded domain name has between 1 and 255 bytes (read into a 256-byte
buffer). -/
theorem Decode_never_panics (m1 : HelloRequest) (m2 : HelloResponse)
    (m3 : ConnectionRequest) (m4 : ConnectionResponse) (r : Reader) :
    ((HelloRequest.Decode m1 r).out ≠ Outcome.panic ∧
      (HelloResponse.Decode m2 r).out ≠ Outcome.panic ∧
      (ConnectionRequest.Decode m3 r).out ≠ Outcome.panic ∧
      (ConnectionResponse.Decode m4 r).out ≠ Outcome.panic) ∧
    ((HelloRequest.Decode m1 r).out = Outcome.nil →
      1 ≤ (HelloRequest.Decode m1 r).msg.NumberOfAuth ∧
      (HelloRequest.Decode m1 r).msg.NumberOfAuth ≤ 16) ∧
    ((ConnectionRequest.Decode m3 r).out = Outcome.nil →
      (ConnectionRequest.Decode m3 r).msg.Address.Typ = Domain →
      1 ≤ (ConnectionRequest.Decode m3 r).msg.Address.Domain.length ∧
      (ConnectionRequest.Decode m3 r).msg.Address.Domain.length ≤ 255) :=
  ⟨⟨(HelloRequest_Decode_safe m1 r).1, HelloResponse_Decode_safe m2 r,
      (ConnectionRequest_Decode_safe m3 r).1, ConnectionResponse_Decode_safe m4 r⟩,
    (HelloRequest_Decode_safe m1 r).2, (ConnectionRequest_Decode_safe m3 r).2⟩

theorem Decode_never_panics_witness :
    1 ≤ (HelloRequest.Decode HelloRequest.fresh [5, 2, 0, 2]).msg.NumberOfAuth ∧
    (HelloRequest.Decode HelloRequest.fresh [5, 2, 0, 2]).msg.NumberOfAuth ≤ 16 :=
  (Decode_never_panics HelloRequest.fresh HelloResponse.fresh ConnectionRequest.fresh
    ConnectionResponse.fresh [5, 2, 0, 2]).2.1
    (by
      have h := HelloRequest_Decode_eq HelloRequest.fresh 2 [0, 2] [] (by decide)
        (by decide) rfl rfl
      simp only [List.append_nil] at h
      rw [h])

/-! ## Decoding, then encoding what was decoded -/

theorem port_bytes_back (p0 p1 : Nat) (h0 : p0 < 256) (h1 : p1 < 256) :
    ((((p0 * 256) % 65536 + p1) % 65536) / 256) % 256 = p0 ∧
    (((p0 * 256) % 65536 + p1) % 65536) % 256 = p1 := by
  constructor <;> omega

theorem HelloRequest_forward (r : Reader)
    (h : (HelloRequest.Decode HelloRequest.fresh r).out = Outcome.nil) :
    ∃ consumed, r = consumed ++ (HelloRequest.Decode HelloRequest.fresh r).r ∧
      consumed.length = 2 + (HelloRequest.Decode HelloRequest.fresh r).msg.NumberOfAuth ∧
      HelloRequest.Encode (HelloRequest.Decode HelloRequest.fresh r).msg Writer.buffer
        = { w := { out := consumed, room := none }, out := Outcome.nil } := by
  obtain ⟨c, a, rest, hr, ha, h1, h16⟩ := HelloRequest_Decode_nil_inv _ _ h
  subst hr
  have hfl : HelloRequest.fresh.AuthMethods.length = 16 := rfl
  rw [HelloRequest_Decode_eq HelloRequest.fresh c a rest h1 h16 ha hfl]
  refine ⟨5 :: c :: a, by simp, by simp [ha]; omega, ?_⟩
  have hlen : (a ++ List.drop c HelloRequest.fresh.AuthMethods).length = 16 := by
    simp [ha, hfl]; omega
  rw [HelloRequest_Encode_eq _ _ h16 hlen, writeBytes_unbounded _ _ rfl]
  simp only [Writer.buffer, List.nil_append]
  rw [List.take_left' ha]

theorem HelloResponse_forward (r : Reader)
    (h : (HelloResponse.Decode HelloResponse.fresh r).out = Outcome.nil) :
    ∃ consumed, r = consumed ++ (HelloResponse.Decode HelloResponse.fresh r).r ∧
      consumed.length = 2 ∧
      HelloResponse.Encode (HelloResponse.Decode HelloResponse.fresh r).msg Writer.buffer
        = { w := { out := consumed, room := none }, out := Outcome.nil } := by
  obtain ⟨c, rest, hr⟩ := HelloResponse_Decode_nil_inv _ _ h
  subst hr
  rw [HelloResponse_Decode_eq]
  refine ⟨[5, c], rfl, rfl, ?_⟩
  rw [HelloResponse_Encode_eq, writeBytes_unbounded _ _ rfl]
  rfl

theorem ConnectionRequest_forward (r : Reader) (hb : isBytes r)
    (h : (ConnectionRequest.Decode ConnectionRequest.fresh r).out = Outcome.nil) :
    ∃ consumed, r = consumed ++ (ConnectionRequest.Decode ConnectionRequest.fresh r).r ∧
      (((ConnectionRequest.Decode ConnectionRequest.fresh r).msg.Address.Typ = IPv4 ∧
          consumed.length = 6 + 4) ∨
        ((ConnectionRequest.Decode ConnectionRequest.fresh r).msg.Address.Typ = IPv6 ∧
          consumed.length = 6 + 16) ∨
        ((ConnectionRequest.Decode ConnectionRequest.fresh r).msg.Address.Typ = Domain ∧
          consumed.length
            = 6 + (ConnectionRequest.Decode ConnectionRequest.fresh r).msg.Address.Domain.length
              + 1)) ∧
      ConnectionRequest.Encode (ConnectionRequest.Decode ConnectionRequest.fresh r).msg
          Writer.buffer
        = { w := { out := consumed, room := none }, out := Outcome.nil } := by
  rcases ConnectionRequest_Decode_cases ConnectionRequest.fresh r with
    ⟨e, he⟩ | ⟨c, t, s, buf, hr, hc, hbl, hdec⟩
  · rw [he] at h; exact Outcome.noConfusion h
  · rw [hdec] at h ⊢
    subst hr
    rcases ConnectionRequest_decodeAddress_nil_inv _ _ _ h with
      ⟨ht, ip, p0, p1, rest, hs, hl⟩ | ⟨ht, ip, p0, p1, rest, hs, hl⟩ |
      ⟨ht, name, p0, p1, rest, hs, h1, h255⟩
    · simp only at ht
      subst hs ht
      have hp0 : p0 < 256 := hb p0 (by simp)
      have hp1 : p1 < 256 := hb p1 (by simp)
      obtain ⟨e0, e1⟩ := port_bytes_back p0 p1 hp0 hp1
      rw [ConnectionRequest_decodeAddress_v4 _ ip p0 p1 rest buf rfl hl]
      refine ⟨5 :: c :: 0 :: IPv4 :: (ip ++ [p0, p1]), by simp, Or.inl ⟨rfl, by simp [hl]⟩, ?_⟩
      rw [ConnectionRequest_Encode_v4 _ _ ip rfl rfl hl, writeBytes_unbounded _ _ rfl]
      simp only [e0, e1]
      rfl
    · simp only at ht
      subst hs ht
      have hp0 : p0 < 256 := hb p0 (by simp)
      have hp1 : p1 < 256 := hb p1 (by simp)
      obtain ⟨e0, e1⟩ := port_bytes_back p0 p1 hp0 hp1
      rw [ConnectionRequest_decodeAddress_v6 _ ip p0 p1 rest buf rfl hl]
      refine ⟨5 :: c :: 0 :: IPv6 :: (ip ++ [p0, p1]), by simp,
        Or.inr (Or.inl ⟨rfl, by simp [hl]⟩), ?_⟩
      rw [ConnectionRequest_Encode_v6 _ _ ip [] rfl rfl hl, writeBytes_unbounded _ _ rfl]
      simp only [e0, e1]
      rfl
    · simp only at ht
      subst hs ht
      have hp0 : p0 < 256 := hb p0 (by simp)
      have hp1 : p1 < 256 := hb p1 (by simp)
      obtain ⟨e0, e1⟩ := port_bytes_back p0 p1 hp0 hp1
      have hmod : name.length % 256 = name.length := by omega
      rw [ConnectionRequest_decodeAddress_domain _ name p0 p1 rest buf rfl h1 h255 hbl]
      refine ⟨5 :: c :: 0 :: Domain :: name.length :: (name ++ [p0, p1]), by simp,
        Or.inr (Or.inr ⟨rfl, by simp; omega⟩), ?_⟩
      rw [ConnectionRequest_Encode_domain _ _ rfl, if_pos (by simp only; omega),
        writeBytes_unbounded _ _ rfl]
      simp only [e0, e1, hmod]
      rfl

theorem ConnectionResponse_forward (r : Reader) (hb : isBytes r)
    (h : (ConnectionResponse.Decode ConnectionResponse.fresh r).out = Outcome.nil) :
    ∃ consumed, r = consumed ++ (ConnectionResponse.Decode ConnectionResponse.fresh r).r ∧
      (((ConnectionResponse.Decode ConnectionResponse.fresh r).msg.Address.Typ = IPv4 ∧
          consumed.length = 6 + 4) ∨
        ((ConnectionResponse.Decode ConnectionResponse.fresh r).msg.Address.Typ = IPv6 ∧
          consumed.length = 6 + 16)) ∧
      ConnectionResponse.Encode (ConnectionResponse.Decode ConnectionResponse.fresh r).msg
          Writer.buffer
        = { w := { out := consumed, room := none }, out := Outcome.nil } := by
  rcases ConnectionResponse_Decode_cases ConnectionResponse.fresh r with
    ⟨e, he⟩ | ⟨c, t, s, buf, hr, hc, hbl, hdec⟩
  · rw [he] at h; exact Outcome.noConfusion h
  · rw [hdec] at h ⊢
    subst hr
    rcases ConnectionResponse_decodeAddress_nil_inv _ _ _ h with
      ⟨ht, ip, p0, p1, rest, hs, hl⟩ | ⟨ht, ip, p0, p1, rest, hs, hl⟩
    · simp only at ht
      subst hs ht
      have hp0 : p0 < 256 := hb p0 (by simp)
      have hp1 : p1 < 256 := hb p1 (by simp)
      obtain ⟨e0, e1⟩ := port_bytes_back p0 p1 hp0 hp1
      rw [ConnectionResponse_decodeAddress_v4 _ ip p0 p1 rest buf rfl hl]
      refine ⟨5 :: c :: 0 :: IPv4 :: (ip ++ [p0, p1]), by simp, Or.inl ⟨rfl, by simp [hl]⟩, ?_⟩
      rw [ConnectionResponse_Encode_v4 _ _ ip rfl rfl hl, writeBytes_unbounded _ _ rfl]
      simp only [e0, e1]
      rfl
    · simp only at ht
      subst hs ht
      have hp0 : p0 < 256 := hb p0 (by simp)
      have hp1 : p1 < 256 := hb p1 (by simp)
      obtain ⟨e0, e1⟩ := port_bytes_back p0 p1 hp0 hp1
      rw [ConnectionResponse_decodeAddress_v6 _ ip p0 p1 rest buf rfl hl]
      refine ⟨5 :: c :: 0 :: IPv6 :: (ip ++ [p0, p1]), by simp,
        Or.inr ⟨rfl, by simp [hl]⟩, ?_⟩
      rw [ConnectionResponse_Encode_v6 _ _ ip [] rfl rfl hl, writeBytes_unbounded _ _ rfl]
      simp only [e0, e1]
      rfl

/-- C20: for each of the four message types and every byte stream on which
Decode into a fresh message succeeds, the stream is the consumed bytes
followed by what Decode left unread; the consumed bytes number 2 + count for
HelloRequest, 2 for HelloResponse, and 6 + the address length (4 or 16, or
the name length plus 1 for the domain length byte) for ConnectionRequest and
ConnectionResponse; and Encode of the decoded message hands an accepting
writer exactly the consumed bytes. -/
theorem Decode_then_Encode_verbatim (r : Reader) (hb : isBytes r) :
    ((HelloRequest.Decode HelloRequest.fresh r).out = Outcome.nil →
      ∃ consumed, r = consumed ++ (HelloRequest.Decode HelloRequest.fresh r).r ∧
        consumed.length = 2 + (HelloRequest.Decode HelloRequest.fresh r).msg.NumberOfAuth ∧
        HelloRequest.Encode (HelloRequest.Decode HelloRequest.fresh r).msg Writer.buffer
          = { w := { out := consumed, room := none }, out := Outcome.nil }) ∧
    ((HelloResponse.Decode HelloResponse.fresh r).out = Outcome.nil →
      ∃ consumed, r = consumed ++ (HelloResponse.Decode HelloResponse.fresh r).r ∧
        consumed.length = 2 ∧
        HelloResponse.Encode (HelloResponse.Decode HelloResponse.fresh r).msg Writer.buffer
          = { w := { out := consumed, room := none }, out := Outcome.nil }) ∧
    ((ConnectionRequest.Decode ConnectionRequest.fresh r).out = Outcome.nil →
      ∃ consumed, r = consumed ++ (ConnectionRequest.Decode ConnectionRequest.fresh r).r ∧
        (((ConnectionRequest.Decode ConnectionRequest.fresh r).msg.Address.Typ = IPv4 ∧
            consumed.length = 6 + 4) ∨
          ((ConnectionRequest.Decode ConnectionRequest.fresh r).msg.Address.Typ = IPv6 ∧
            consumed.length = 6 + 16) ∨
          ((ConnectionRequest.Decode ConnectionRequest.fresh r).msg.Address.Typ = Domain ∧
            consumed.length
              = 6 + (ConnectionRequest.Decode ConnectionRequest.fresh r).msg.Address.Domain.length
                + 1)) ∧
        ConnectionRequest.Encode (ConnectionRequest.Decode ConnectionRequest.fresh r).msg
            Writer.buffer
          = { w := { out := consumed, room := none }, out := Outcome.nil }) ∧
    ((ConnectionResponse.Decode ConnectionResponse.fresh r).out = Outcome.nil →
      ∃ consumed, r = consumed ++ (ConnectionResponse.Decode ConnectionResponse.fresh r).r ∧
        (((ConnectionResponse.Decode ConnectionResponse.fresh r).msg.Address.Typ = IPv4 ∧
            consumed.length = 6 + 4) ∨
          ((ConnectionResponse.Decode ConnectionResponse.fresh r).msg.Address.Typ = IPv6 ∧
            consumed.length = 6 + 16)) ∧
        ConnectionResponse.Encode (ConnectionResponse.Decode ConnectionResponse.fresh r).msg
            Writer.buffer
          = { w := { out := consumed, room := none }, out := Outcome.nil }) :=
  ⟨HelloRequest_forward r, HelloResponse_forward r, ConnectionRequest_forward r hb,
    ConnectionResponse_forward r hb⟩

theorem Decode_then_Encode_verbatim_witness :
    isBytes [5, 1, 0, 1, 10, 0, 0, 1, 0, 80, 99] ∧
    ∃ consumed,
      [5, 1, 0, 1, 10, 0, 0, 1, 0, 80, 99]
        = consumed ++ (ConnectionRequest.Decode ConnectionRequest.fresh
            [5, 1, 0, 1, 10, 0, 0, 1, 0, 80, 99]).r ∧
      (((ConnectionRequest.Decode ConnectionRequest.fresh
            [5, 1, 0, 1, 10, 0, 0, 1, 0, 80, 99]).msg.Address.Typ = IPv4 ∧
          consumed.length = 6 + 4) ∨
        ((ConnectionRequest.Decode ConnectionRequest.fresh
            [5, 1, 0, 1, 10, 0, 0, 1, 0, 80, 99]).msg.Address.Typ = IPv6 ∧
          consumed.length = 6 + 16) ∨
        ((ConnectionRequest.Decode ConnectionRequest.fresh
            [5, 1, 0, 1, 10, 0, 0, 1, 0, 80, 99]).msg.Address.Typ = Domain ∧
          consumed.length
            = 6 + (ConnectionRequest.Decode ConnectionRequest.fresh
                [5, 1, 0, 1, 10, 0, 0, 1, 0, 80, 99]).msg.Address.Domain.length + 1)) ∧
      ConnectionRequest.Encode
          (ConnectionRequest.Decode ConnectionRequest.fresh
            [5, 1, 0, 1, 10, 0, 0, 1, 0, 80, 99]).msg Writer.buffer
        = { w := { out := consumed, room := none }, out := Outcome.nil } :=
  ⟨by decide,
    (Decode_then_Encode_verbatim [5, 1, 0, 1, 10, 0, 0, 1, 0, 80, 99] (by decide)).2.2.1
      (by
        obtain ⟨buf, -, hdec⟩ := ConnectionRequest_Decode_header ConnectionRequest.fresh 1 1
          [10, 0, 0, 1, 0, 80, 99] (Or.inl rfl)
        have h4 := ConnectionRequest_decodeAddress_v4
          { Version := 5, Command := 1,
            Address := { ConnectionRequest.fresh.Address with Typ := 1 } }
          [10, 0, 0, 1] 0 80 [99] buf rfl rfl
        simp only [List.cons_append, List.nil_append] at h4
        rw [hdec, h4])⟩

end Http2socks
